import Mathlib

/-!
Formal model of the nova-act-mcp browser-session server.

This file gives a shallow embedding, in Lean 4, of the session-lifecycle and
artifact-capture logic of the repository:

* `nova_mcp.py` — the monolithic tool surface (`browser_session` with
  actions start / execute / end, `list_browser_sessions`, credential
  sanitization, direct Playwright pattern fast path);
* `src/nova_mcp_server/tools/actions_start.py`, `actions_end.py`,
  `actions_inspect.py`, `browser_control.py` — the modular tool surface.

Python strings are modelled as `List Char`; the registry
(`active_sessions`) as an association list from session id to an entry
record; machine effects (Playwright page reads, screenshot capture, file
writes, `nova.act` calls) as explicit environment records whose fields are
`Except`/`Bool` outcomes.  Python's `str.replace` and `re.sub` on literal
patterns are modelled by a fuel-indexed leftmost non-overlapping rewriting
function, parameterized by a character comparison so that the same
development covers the exact and the case-insensitive scan.
-/

namespace NovaMcp

/-! ## Leftmost non-overlapping pattern rewriting

`prefMatch eqc pat s` holds when `pat` matches the front of `s` pointwise
under the character comparison `eqc`.  `replaceAllFuel` performs the
leftmost non-overlapping replace-all scan of Python's `str.replace`
(with `eqc` exact) and of `re.sub` on a literal pattern (with `eqc`
case-insensitive).  Fuel is the structural recursion handle; any fuel at
least the length of the subject string gives the untruncated scan, and
the fuel-zero truncation never changes the `interc`/`splitOnFuel`
decomposition facts proved below. -/

def prefMatch (eqc : Char → Char → Bool) : List Char → List Char → Bool
  | [], _ => true
  | _ :: _, [] => false
  | a :: p, b :: s => eqc a b && prefMatch eqc p s

def replaceAllFuel (eqc : Char → Char → Bool) (pat rep : List Char) :
    Nat → List Char → List Char
  | _, [] => []
  | 0, s => s
  | fuel + 1, c :: rest =>
    if prefMatch eqc pat (c :: rest) then
      rep ++ replaceAllFuel eqc pat rep fuel (rest.drop (pat.length - 1))
    else
      c :: replaceAllFuel eqc pat rep fuel rest

/-- Fragments of the subject string between the matches that
`replaceAllFuel` rewrites, in order. -/
def splitOnFuel (eqc : Char → Char → Bool) (pat : List Char) :
    Nat → List Char → List (List Char)
  | _, [] => [[]]
  | 0, s => [s]
  | fuel + 1, c :: rest =>
    if prefMatch eqc pat (c :: rest) then
      [] :: splitOnFuel eqc pat fuel (rest.drop (pat.length - 1))
    else
      match splitOnFuel eqc pat fuel rest with
      | [] => [[c]]
      | t :: ts => (c :: t) :: ts

/-- Intercalation of a separator between fragments; the inverse shape of
`splitOnFuel`. -/
def interc (sep : List Char) : List (List Char) → List Char
  | [] => []
  | [t] => t
  | t :: ts => t ++ sep ++ interc sep ts

/-- Does `pat` occur (under `eqc`) anywhere in the subject? -/
def occursPat (eqc : Char → Char → Bool) (pat : List Char) : List Char → Bool
  | [] => prefMatch eqc pat []
  | c :: rest => prefMatch eqc pat (c :: rest) || occursPat eqc pat rest

/-- Exact character equality, as used by Python `str.replace`. -/
def chEq (a b : Char) : Bool := a == b

/-- ASCII case-insensitive character equality, as used by
`re.sub(r"(?i)...", ...)` on the letters involved here. -/
def chEqCI (a b : Char) : Bool := a.toLower == b.toLower

/-- Python `str.replace(old, new)` on `List Char` (total; the empty-pattern
case, unreachable from the call sites modelled here, returns the subject
unchanged). -/
def pyReplace (s pat rep : List Char) : List Char :=
  if pat.isEmpty then s else replaceAllFuel chEq pat rep s.length s

/-- Python `re.sub(r"(?i)pat", rep, s)` for a literal alphabetic pattern. -/
def pyReplaceCI (s pat rep : List Char) : List Char :=
  if pat.isEmpty then s else replaceAllFuel chEqCI pat rep s.length s

theorem prefMatch_nil_iff (eqc : Char → Char → Bool) (pat : List Char) :
    prefMatch eqc pat [] = true ↔ pat = [] := by
  cases pat <;> simp [prefMatch]

theorem splitOnFuel_ne_nil (eqc : Char → Char → Bool) (pat : List Char)
    (fuel : Nat) (s : List Char) : splitOnFuel eqc pat fuel s ≠ [] := by
  match fuel, s with
  | _, [] => simp [splitOnFuel]
  | 0, c :: rest => simp [splitOnFuel]
  | fuel + 1, c :: rest =>
    by_cases h : prefMatch eqc pat (c :: rest) = true
    · simp [splitOnFuel, h]
    · simp only [splitOnFuel, h]
      cases hs : splitOnFuel eqc pat fuel rest <;> simp

theorem replaceAllFuel_eq_interc (eqc : Char → Char → Bool)
    (pat rep : List Char) (fuel : Nat) (s : List Char) :
    replaceAllFuel eqc pat rep fuel s = interc rep (splitOnFuel eqc pat fuel s) := by
  match fuel, s with
  | _, [] => simp [replaceAllFuel, splitOnFuel, interc]
  | 0, c :: rest => simp [replaceAllFuel, splitOnFuel, interc]
  | fuel + 1, c :: rest =>
    by_cases h : prefMatch eqc pat (c :: rest) = true
    · have ih := replaceAllFuel_eq_interc eqc pat rep fuel (rest.drop (pat.length - 1))
      simp only [replaceAllFuel, splitOnFuel, h, if_pos]
      obtain ⟨t, ts, hts⟩ :
          ∃ t ts, splitOnFuel eqc pat fuel (rest.drop (pat.length - 1)) = t :: ts := by
        cases hs : splitOnFuel eqc pat fuel (rest.drop (pat.length - 1)) with
        | nil => exact absurd hs (splitOnFuel_ne_nil eqc pat fuel _)
        | cons t ts => exact ⟨t, ts, rfl⟩
      rw [hts] at ih ⊢
      simp [interc, ih]
    · have ih := replaceAllFuel_eq_interc eqc pat rep fuel rest
      simp only [replaceAllFuel, splitOnFuel, h, if_neg, Bool.false_eq_true,
        not_false_iff]
      cases hs : splitOnFuel eqc pat fuel rest with
      | nil => exact absurd hs (splitOnFuel_ne_nil eqc pat fuel _)
      | cons t ts =>
        rw [hs] at ih
        cases ts with
        | nil => simp [interc] at ih ⊢; simp [ih]
        | cons t2 ts2 => simp [interc] at ih ⊢; simp [ih]

theorem replaceAllFuel_fuel_irrel (eqc : Char → Char → Bool)
    (pat rep : List Char) (fuel fuel' : Nat) (s : List Char)
    (h : s.length ≤ fuel) (h' : s.length ≤ fuel') :
    replaceAllFuel eqc pat rep fuel s = replaceAllFuel eqc pat rep fuel' s := by
  match fuel, fuel', s with
  | _, _, [] => simp [replaceAllFuel]
  | 0, _, c :: rest => simp at h
  | fuel + 1, 0, c :: rest => simp at h'
  | fuel + 1, fuel' + 1, c :: rest =>
    by_cases hm : prefMatch eqc pat (c :: rest) = true
    · simp only [replaceAllFuel, hm, if_pos]
      have hlen : (rest.drop (pat.length - 1)).length ≤ rest.length := by
        rw [List.length_drop]; exact Nat.sub_le _ _
      have := replaceAllFuel_fuel_irrel eqc pat rep fuel fuel'
        (rest.drop (pat.length - 1))
        (le_trans hlen (by simpa using h))
        (le_trans hlen (by simpa using h'))
      rw [this]
    · simp only [replaceAllFuel, hm, if_neg, Bool.false_eq_true, not_false_iff]
      have := replaceAllFuel_fuel_irrel eqc pat rep fuel fuel' rest
        (by simpa using h) (by simpa using h')
      rw [this]

theorem prefMatch_append_right (eqc : Char → Char → Bool) :
    ∀ (pat a b : List Char), prefMatch eqc pat a = true →
      prefMatch eqc pat (a ++ b) = true
  | [], _, _, _ => by simp [prefMatch]
  | x :: p, [], b, h => by simp [prefMatch] at h
  | x :: p, y :: a, b, h => by
    simp only [prefMatch, Bool.and_eq_true] at h
    simp only [List.cons_append, prefMatch, Bool.and_eq_true]
    exact ⟨h.1, prefMatch_append_right eqc p a b h.2⟩

theorem prefMatch_of_append_le (eqc : Char → Char → Bool) :
    ∀ (pat a b : List Char), prefMatch eqc pat (a ++ b) = true →
      pat.length ≤ a.length → prefMatch eqc pat a = true
  | [], _, _, _, _ => by simp [prefMatch]
  | x :: p, [], b, _, hle => by simp at hle
  | x :: p, y :: a, b, h, hle => by
    simp only [List.cons_append, prefMatch, Bool.and_eq_true] at h
    simp only [prefMatch, Bool.and_eq_true]
    exact ⟨h.1, prefMatch_of_append_le eqc p a b h.2 (by simpa using hle)⟩

theorem prefMatch_mem_of_lt (eqc : Char → Char → Bool) :
    ∀ (pat a : List Char) (c : Char) (b : List Char),
      prefMatch eqc pat (a ++ c :: b) = true → a.length < pat.length →
      ∃ x ∈ pat, eqc x c = true
  | [], a, c, b, _, hlt => by simp at hlt
  | x :: p, [], c, b, h, _ => by
    simp only [List.nil_append, prefMatch, Bool.and_eq_true] at h
    exact ⟨x, List.mem_cons_self .., h.1⟩
  | x :: p, y :: a, c, b, h, hlt => by
    simp only [List.cons_append, prefMatch, Bool.and_eq_true] at h
    obtain ⟨z, hz, hzc⟩ :=
      prefMatch_mem_of_lt eqc p a c b h.2 (by simpa using hlt)
    exact ⟨z, List.mem_cons_of_mem _ hz, hzc⟩

theorem prefMatch_nil_false (eqc : Char → Char → Bool) {pat : List Char}
    (hpat : pat ≠ []) : prefMatch eqc pat [] = false := by
  cases hpm : prefMatch eqc pat [] with
  | false => rfl
  | true => exact absurd ((prefMatch_nil_iff eqc pat).mp hpm) hpat

theorem occursPat_nil_false (eqc : Char → Char → Bool) {pat : List Char}
    (hpat : pat ≠ []) : occursPat eqc pat [] = false := by
  simpa [occursPat] using prefMatch_nil_false eqc hpat

theorem splitOnFuel_head_pref (eqc : Char → Char → Bool) (pat : List Char) :
    ∀ (fuel : Nat) (s : List Char),
      ∃ t ts, splitOnFuel eqc pat fuel s = t :: ts ∧ t <+: s := by
  intro fuel s
  match fuel, s with
  | _, [] => exact ⟨[], [], by simp [splitOnFuel], List.nil_prefix⟩
  | 0, c :: rest => exact ⟨c :: rest, [], by simp [splitOnFuel], List.prefix_refl _⟩
  | fuel + 1, c :: rest =>
    by_cases hm : prefMatch eqc pat (c :: rest) = true
    · exact ⟨[], splitOnFuel eqc pat fuel (rest.drop (pat.length - 1)),
        by simp [splitOnFuel, hm], List.nil_prefix⟩
    · obtain ⟨t, ts, hts, hpre⟩ := splitOnFuel_head_pref eqc pat fuel rest
      refine ⟨c :: t, ts, ?_, ?_⟩
      · simp only [splitOnFuel, hm, if_neg, Bool.false_eq_true, not_false_iff, hts]
      · exact (List.prefix_cons_inj c).mpr hpre

theorem splitOnFuel_mem_infix_subject (eqc : Char → Char → Bool) (pat : List Char) :
    ∀ (fuel : Nat) (s t : List Char),
      t ∈ splitOnFuel eqc pat fuel s → t <:+: s := by
  intro fuel s t ht
  match fuel, s with
  | _, [] =>
    simp [splitOnFuel] at ht
    simp [ht]
  | 0, c :: rest =>
    simp [splitOnFuel] at ht
    simp [ht, List.infix_refl]
  | fuel + 1, c :: rest =>
    by_cases hm : prefMatch eqc pat (c :: rest) = true
    · simp only [splitOnFuel, hm, if_pos, List.mem_cons] at ht
      rcases ht with rfl | ht
      · exact List.nil_infix
      · have h1 : t <:+: rest.drop (pat.length - 1) :=
          splitOnFuel_mem_infix_subject eqc pat fuel _ t ht
        have h2 : rest.drop (pat.length - 1) <:+: c :: rest :=
          ((List.drop_suffix _ _).trans (List.suffix_cons c rest)).isInfix
        exact h1.trans h2
    · simp only [splitOnFuel, hm, if_neg, Bool.false_eq_true, not_false_iff] at ht
      obtain ⟨t0, ts, hts, hpre⟩ := splitOnFuel_head_pref eqc pat fuel rest
      rw [hts] at ht
      rcases List.mem_cons.mp ht with rfl | hmem
      · exact ((List.prefix_cons_inj c).mpr hpre).isInfix
      · have h1 : t <:+: rest :=
          splitOnFuel_mem_infix_subject eqc pat fuel rest t (hts ▸ List.mem_cons_of_mem t0 hmem)
        exact h1.trans ⟨[c], [], by simp⟩

theorem splitOnFuel_mem_no_match (eqc : Char → Char → Bool) (pat : List Char)
    (hpat : pat ≠ []) :
    ∀ (fuel : Nat) (s t : List Char), s.length ≤ fuel →
      t ∈ splitOnFuel eqc pat fuel s → occursPat eqc pat t = false := by
  intro fuel s t hf ht
  match fuel, s with
  | _, [] =>
    simp [splitOnFuel] at ht
    subst ht
    exact occursPat_nil_false eqc hpat
  | 0, c :: rest => simp at hf
  | fuel + 1, c :: rest =>
    have hf' : rest.length ≤ fuel := by simpa using hf
    by_cases hm : prefMatch eqc pat (c :: rest) = true
    · simp only [splitOnFuel, hm, if_pos, List.mem_cons] at ht
      rcases ht with rfl | ht
      · exact occursPat_nil_false eqc hpat
      · have hlen : (rest.drop (pat.length - 1)).length ≤ fuel := by
          rw [List.length_drop]; exact le_trans (Nat.sub_le _ _) hf'
        exact splitOnFuel_mem_no_match eqc pat hpat fuel _ t hlen ht
    · simp only [splitOnFuel, hm, if_neg, Bool.false_eq_true, not_false_iff] at ht
      obtain ⟨t0, ts, hts, hpre⟩ := splitOnFuel_head_pref eqc pat fuel rest
      rw [hts] at ht
      rcases List.mem_cons.mp ht with rfl | hmem
      · have ht0 : occursPat eqc pat t0 = false :=
          splitOnFuel_mem_no_match eqc pat hpat fuel rest t0 hf'
            (hts ▸ List.mem_cons_self ..)
        simp only [occursPat, Bool.or_eq_false_iff]
        constructor
        · by_contra hcontra
          have hp : prefMatch eqc pat (c :: t0) = true := by
            revert hcontra
            cases prefMatch eqc pat (c :: t0) <;> simp
          obtain ⟨u, hu⟩ := hpre
          have : prefMatch eqc pat (c :: rest) = true := by
            have := prefMatch_append_right eqc pat (c :: t0) u hp
            rwa [show (c :: t0) ++ u = c :: rest by rw [← hu]; simp] at this
          exact hm this
        · -- the tail of the head fragment has no match either: occurrences in
          -- `t0` would be occurrences reported for the head fragment of `rest`
          have ht0' : occursPat eqc pat t0 = false := ht0
          cases hocc : occursPat eqc pat t0 with
          | false => rfl
          | true => rw [hocc] at ht0'; cases ht0'
      · exact splitOnFuel_mem_no_match eqc pat hpat fuel rest t hf'
          (hts ▸ List.mem_cons_of_mem t0 hmem)

theorem prefMatch_chEq_iff : ∀ (p s : List Char),
    prefMatch chEq p s = true ↔ p <+: s
  | [], s => by simp [prefMatch]
  | x :: p, [] => by
    simp only [prefMatch, Bool.false_eq_true, false_iff]
    intro h
    simpa using h.length_le
  | x :: p, y :: s => by
    simp only [prefMatch, chEq, Bool.and_eq_true, beq_iff_eq,
      prefMatch_chEq_iff p s, List.cons_prefix_cons]

theorem occursPat_chEq_iff : ∀ (p s : List Char),
    occursPat chEq p s = true ↔ p <:+: s
  | p, [] => by
    simp only [occursPat, prefMatch_nil_iff, List.infix_nil]
  | p, c :: s => by
    rw [List.infix_cons_iff]
    simp only [occursPat, Bool.or_eq_true, prefMatch_chEq_iff,
      occursPat_chEq_iff p s]

/-- Decomposition of an infix occurrence across a concatenation: the
occurrence lies in the left part, in the right part, or straddles the
junction. -/
theorem infix_append_split {q a b : List Char} (h : q <:+: a ++ b) :
    q <:+: a ∨ q <:+: b ∨
      ∃ q1 q2, q = q1 ++ q2 ∧ q1 ≠ [] ∧ q2 ≠ [] ∧ q1 <:+ a ∧ q2 <+: b := by
  obtain ⟨u, v, huv⟩ := h
  have huv' : u ++ (q ++ v) = a ++ b := by simpa [List.append_assoc] using huv
  rcases List.append_eq_append_iff.mp huv' with ⟨a', ha, hqv⟩ | ⟨c', hu, hb⟩
  · rcases List.append_eq_append_iff.mp hqv with ⟨w, haw, hv⟩ | ⟨w, hq, hbw⟩
    · left
      exact ⟨u, w, by rw [ha, haw, List.append_assoc]⟩
    · rcases eq_or_ne a' [] with rfl | ha'
      · right; left
        refine ⟨[], v, ?_⟩
        simp only [List.nil_append] at hq
        subst hq
        simp [hbw]
      · rcases eq_or_ne w [] with rfl | hw
        · left
          refine ⟨u, [], ?_⟩
          simp only [List.append_nil] at hq ⊢
          rw [ha, hq]
        · right; right
          refine ⟨a', w, hq, ha', hw, ⟨u, by rw [ha]⟩, ⟨v, by rw [hbw]⟩⟩
  · right; left
    exact ⟨c', v, by rw [hb, List.append_assoc]⟩

theorem replaceAllFuel_nil (eqc : Char → Char → Bool) (pat rep : List Char)
    (fuel : Nat) : replaceAllFuel eqc pat rep fuel [] = [] := by
  cases fuel <;> rfl

theorem replaceAllFuel_cons (eqc : Char → Char → Bool) (pat rep : List Char)
    (f : Nat) (c : Char) (rest : List Char) :
    replaceAllFuel eqc pat rep (f + 1) (c :: rest) =
      if prefMatch eqc pat (c :: rest) = true then
        rep ++ replaceAllFuel eqc pat rep f (rest.drop (pat.length - 1))
      else
        c :: replaceAllFuel eqc pat rep f rest := by
  simp [replaceAllFuel]

theorem prefMatch_no_hd (eqc : Char → Char → Bool) {pat : List Char}
    (hpat : pat ≠ []) {z : Char} (hz : ∀ x ∈ pat, eqc x z = false)
    (b : List Char) : ¬ prefMatch eqc pat (z :: b) = true := by
  intro hcontra
  obtain ⟨x, hx, hxz⟩ := prefMatch_mem_of_lt eqc pat [] z b
    (by simpa using hcontra)
    (by cases pat with
        | nil => exact absurd rfl hpat
        | cons p ps => simp)
  rw [hz x hx] at hxz
  cases hxz

theorem replaceAllFuel_hd_z (eqc : Char → Char → Bool) (pat rep : List Char)
    (hpat : pat ≠ []) (z : Char) (hz : ∀ x ∈ pat, eqc x z = false)
    (b : List Char) (f : Nat) (hf : b.length + 1 ≤ f + 1) :
    replaceAllFuel eqc pat rep (f + 1) (z :: b) =
      replaceAllFuel eqc pat rep (f + 1) [z] ++ replaceAllFuel eqc pat rep (f + 1) b := by
  have hmz := prefMatch_no_hd eqc hpat hz b
  have hmz1 := prefMatch_no_hd eqc hpat hz []
  rw [replaceAllFuel_cons, if_neg hmz]
  rw [show ([z] : List Char) = z :: [] from rfl, replaceAllFuel_cons, if_neg hmz1,
    replaceAllFuel_nil]
  rw [List.cons_append, List.nil_append]
  congr 1
  exact replaceAllFuel_fuel_irrel eqc pat rep f (f + 1) b (by omega) (by omega)

/-- Splitting `replaceAllFuel` at a junction whose right side begins with a
character the pattern can never match: the leftmost scan cannot cross it. -/
theorem replaceAllFuel_append_hd (eqc : Char → Char → Bool)
    (pat rep : List Char) (z : Char)
    (hz : ∀ x ∈ pat, eqc x z = false) :
    ∀ (n : Nat) (a b : List Char) (fuel : Nat), a.length ≤ n →
      (a ++ z :: b).length ≤ fuel →
      replaceAllFuel eqc pat rep fuel (a ++ z :: b) =
        replaceAllFuel eqc pat rep fuel a ++ replaceAllFuel eqc pat rep fuel (z :: b) := by
  intro n
  induction n with
  | zero =>
    intro a b fuel ha hf
    have : a = [] := List.length_eq_zero.mp (Nat.le_zero.mp ha)
    subst this
    rw [List.nil_append, replaceAllFuel_nil, List.nil_append]
  | succ m ih =>
    intro a b fuel ha hf
    match a, fuel with
    | [], _ => rw [List.nil_append, replaceAllFuel_nil, List.nil_append]
    | c :: a', 0 => simp at hf
    | c :: a', f + 1 =>
      have hlb : b.length + 1 ≤ f := by simp at hf; omega
      rw [List.cons_append, replaceAllFuel_cons, replaceAllFuel_cons]
      by_cases hm : prefMatch eqc pat (c :: (a' ++ z :: b)) = true
      · have hple : pat.length ≤ (c :: a').length := by
          by_contra hgt
          obtain ⟨x, hx, hxz⟩ := prefMatch_mem_of_lt eqc pat (c :: a') z b
            (by rw [List.cons_append]; exact hm) (by omega)
          rw [hz x hx] at hxz
          cases hxz
        have hma : prefMatch eqc pat (c :: a') = true :=
          prefMatch_of_append_le eqc pat (c :: a') (z :: b)
            (by rw [List.cons_append]; exact hm) hple
        have hd : (a' ++ z :: b).drop (pat.length - 1) =
            a'.drop (pat.length - 1) ++ z :: b :=
          List.drop_append_of_le_length (by simp at hple; omega)
        rw [if_pos hm, if_pos hma, hd]
        rw [ih (a'.drop (pat.length - 1)) b f
          (by rw [List.length_drop]; simp at ha; omega)
          (by rw [List.length_append, List.length_drop]; simp at hf ⊢; omega)]
        rw [List.append_assoc]
        congr 2
        exact replaceAllFuel_fuel_irrel eqc pat rep f (f + 1) (z :: b)
          (by simp; omega) (by simp; omega)
      · have hma : ¬ prefMatch eqc pat (c :: a') = true := by
          intro hcontra
          refine hm ?_
          have := prefMatch_append_right eqc pat (c :: a') (z :: b) hcontra
          rwa [List.cons_append] at this
        rw [if_neg hm, if_neg hma]
        rw [ih a' b f (by simp at ha; omega) (by simp at hf ⊢; omega)]
        rw [List.cons_append]
        congr 2
        exact replaceAllFuel_fuel_irrel eqc pat rep f (f + 1) (z :: b)
          (by simp; omega) (by simp; omega)

/-- Splitting `replaceAllFuel` at a junction whose left side ends with a
character the pattern can never match. -/
theorem replaceAllFuel_append_last (eqc : Char → Char → Bool)
    (pat rep : List Char) (hpat : pat ≠ []) (z : Char)
    (hz : ∀ x ∈ pat, eqc x z = false) :
    ∀ (n : Nat) (a b : List Char) (fuel : Nat), a.length ≤ n →
      (a ++ z :: b).length ≤ fuel →
      replaceAllFuel eqc pat rep fuel (a ++ z :: b) =
        replaceAllFuel eqc pat rep fuel (a ++ [z]) ++ replaceAllFuel eqc pat rep fuel b := by
  intro n
  induction n with
  | zero =>
    intro a b fuel ha hf
    have : a = [] := List.length_eq_zero.mp (Nat.le_zero.mp ha)
    subst this
    match fuel with
    | 0 => simp at hf
    | f + 1 =>
      rw [List.nil_append, List.nil_append]
      exact replaceAllFuel_hd_z eqc pat rep hpat z hz b f (by simp at hf; omega)
  | succ m ih =>
    intro a b fuel ha hf
    match a, fuel with
    | [], 0 => simp at hf
    | [], f + 1 =>
      rw [List.nil_append, List.nil_append]
      exact replaceAllFuel_hd_z eqc pat rep hpat z hz b f (by simp at hf; omega)
    | c :: a', 0 => simp at hf
    | c :: a', f + 1 =>
      rw [List.cons_append, List.cons_append, replaceAllFuel_cons, replaceAllFuel_cons]
      by_cases hm : prefMatch eqc pat (c :: (a' ++ z :: b)) = true
      · have hple : pat.length ≤ (c :: a').length := by
          by_contra hgt
          obtain ⟨x, hx, hxz⟩ := prefMatch_mem_of_lt eqc pat (c :: a') z b
            (by rw [List.cons_append]; exact hm) (by omega)
          rw [hz x hx] at hxz
          cases hxz
        have hma : prefMatch eqc pat (c :: (a' ++ [z])) = true := by
          have h1 : prefMatch eqc pat (c :: a') = true :=
            prefMatch_of_append_le eqc pat (c :: a') (z :: b)
              (by rw [List.cons_append]; exact hm) hple
          have := prefMatch_append_right eqc pat (c :: a') [z] h1
          rwa [List.cons_append] at this
        have hd : (a' ++ z :: b).drop (pat.length - 1) =
            a'.drop (pat.length - 1) ++ z :: b :=
          List.drop_append_of_le_length (by simp at hple; omega)
        have hd1 : (a' ++ [z]).drop (pat.length - 1) =
            a'.drop (pat.length - 1) ++ [z] :=
          List.drop_append_of_le_length (by simp at hple; omega)
        rw [if_pos hm, if_pos hma, hd, hd1]
        rw [ih (a'.drop (pat.length - 1)) b f
          (by rw [List.length_drop]; simp at ha; omega)
          (by rw [List.length_append, List.length_drop]; simp at hf ⊢; omega)]
        rw [List.append_assoc]
        congr 2
        exact replaceAllFuel_fuel_irrel eqc pat rep f (f + 1) b
          (by simp at hf; omega) (by simp at hf; omega)
      · have hma : ¬ prefMatch eqc pat (c :: (a' ++ [z])) = true := by
          intro hcontra
          by_cases hple : pat.length ≤ (c :: a').length
          · have h1 : prefMatch eqc pat (c :: a') = true :=
              prefMatch_of_append_le eqc pat (c :: a') [z]
                (by rw [List.cons_append]; exact hcontra) hple
            refine hm ?_
            have := prefMatch_append_right eqc pat (c :: a') (z :: b) h1
            rwa [List.cons_append] at this
          · obtain ⟨x, hx, hxz⟩ := prefMatch_mem_of_lt eqc pat (c :: a') z []
              (by rw [List.cons_append]; exact hcontra) (by omega)
            rw [hz x hx] at hxz
            cases hxz
        rw [if_neg hm, if_neg hma]
        rw [ih a' b f (by simp at ha; omega) (by simp at hf ⊢; omega)]
        rw [List.cons_append]
        congr 2
        exact replaceAllFuel_fuel_irrel eqc pat rep f (f + 1) b
          (by simp at hf; omega) (by simp at hf; omega)

/-- Occurrence analysis for `interc`: an infix of the intercalation that
contains neither the first nor the last character of the (nonempty)
separator lies inside the separator or inside one of the fragments. -/
theorem interc_infix_cases (rep : List Char) (hrep : rep ≠ [])
    (p : List Char) (hp : p ≠ [])
    (hz1 : ∀ x, rep.head? = some x → x ∉ p)
    (hz2 : ∀ x, rep.getLast? = some x → x ∉ p) :
    ∀ (parts : List (List Char)), p <:+: interc rep parts →
      p <:+: rep ∨ ∃ t ∈ parts, p <:+: t := by
  intro parts h
  match parts with
  | [] =>
    rw [show interc rep [] = [] from rfl] at h
    exact absurd (List.eq_nil_of_infix_nil h) hp
  | [t] =>
    exact Or.inr ⟨t, List.mem_singleton.mpr rfl, h⟩
  | t :: t2 :: ts =>
    rw [show interc rep (t :: t2 :: ts) = t ++ rep ++ interc rep (t2 :: ts)
      from rfl, List.append_assoc] at h
    rcases infix_append_split h with h1 | h1 | ⟨q1, q2, hq, hq1, hq2, hs1, hp2⟩
    · exact Or.inr ⟨t, List.mem_cons_self .., h1⟩
    · rcases infix_append_split h1 with h2 | h2 | ⟨q1, q2, hq, hq1, hq2, hs1, hp2⟩
      · exact Or.inl h2
      · rcases interc_infix_cases rep hrep p hp hz1 hz2 (t2 :: ts) h2 with
          h3 | ⟨u, hu, hu2⟩
        · exact Or.inl h3
        · exact Or.inr ⟨u, List.mem_cons_of_mem _ hu, hu2⟩
      · -- a straddle out of the separator would contain its last character
        exfalso
        rcases (List.eq_nil_or_concat q1).resolve_left hq1 with ⟨q1', x, rfl⟩
        obtain ⟨u, hu⟩ := hs1
        have hxl : rep.getLast? = some x := by
          rw [← hu, List.concat_eq_append, ← List.append_assoc, List.getLast?_concat]
        refine hz2 x hxl ?_
        rw [hq, List.concat_eq_append]
        exact List.mem_append_left _
          (List.mem_append_right _ (List.mem_singleton.mpr rfl))
    · -- a straddle into the separator block would contain its head character
      exfalso
      obtain ⟨x, q2', rfl⟩ : ∃ x q2', q2 = x :: q2' := by
        cases q2 with
        | nil => exact absurd rfl hq2
        | cons a b => exact ⟨a, b, rfl⟩
      obtain ⟨r, rep', rfl⟩ : ∃ r rep', rep = r :: rep' := by
        cases rep with
        | nil => exact absurd rfl hrep
        | cons a b => exact ⟨a, b, rfl⟩
      obtain ⟨u, hu⟩ := hp2
      have hx : x = r := by
        simp only [List.cons_append] at hu
        exact (List.cons_eq_cons.mp hu).1
      have hxh : (r :: rep').head? = some r := rfl
      refine hz1 r hxh ?_
      rw [hq, ← hx]
      exact List.mem_append_right _ (List.mem_cons_self ..)

/-! ## Credential sanitization (`nova_mcp.py`, `execute_instruction`)

When the caller supplies `username`/`password` together with an
instruction, `execute_instruction` builds the instruction actually handed
to `nova.act` as (lines 751–759):

```
safe_instruction = original_instruction
if username: safe_instruction = safe_instruction.replace(username, "«username»")
if password: safe_instruction = safe_instruction.replace(password, "«password»")
safe_instruction = re.sub(r"(?i)password", "••••••", safe_instruction)
instruction_to_execute = safe_instruction
```
-/

def pwPat : List Char := "password".toList

def bulletMask : List Char := "••••••".toList

def plUser : List Char := "«username»".toList

def plPassword : List Char := "«password»".toList

def maskedPl : List Char := "«••••••»".toList

/-- The final `re.sub(r"(?i)password", "••••••", s)` masking pass. -/
def maskPassword (s : List Char) : List Char := pyReplaceCI s pwPat bulletMask

/-- One `if cred: s = s.replace(cred, placeholder)` step (`None` or the
empty string are falsy in the Python guard). -/
def credReplace (cred : Option (List Char)) (pl s : List Char) : List Char :=
  match cred with
  | some c => if c.isEmpty then s else pyReplace s c pl
  | none => s

/-- The sanitized instruction built by `execute_instruction` before the
`nova.act` call: replace the username, then the password, then mask any
remaining case-insensitive occurrence of the word `password`. -/
def sanitizeInstruction (username password : Option (List Char))
    (instr : List Char) : List Char :=
  maskPassword (credReplace password plPassword (credReplace username plUser instr))

theorem maskPassword_eq_fuel (s : List Char) (fuel : Nat) (h : s.length ≤ fuel) :
    maskPassword s = replaceAllFuel chEqCI pwPat bulletMask fuel s := by
  rw [maskPassword, pyReplaceCI, if_neg (by decide : ¬ pwPat.isEmpty = true)]
  exact replaceAllFuel_fuel_irrel chEqCI pwPat bulletMask s.length fuel s
    (le_refl _) h

theorem maskPassword_glue (t X : List Char) :
    maskPassword (t ++ (plPassword ++ X)) =
      maskPassword t ++ (maskedPl ++ maskPassword X) := by
  have hpw : pwPat ≠ [] := by decide
  have hz1 : ∀ x ∈ pwPat, chEqCI x '«' = false := by decide
  have hz2 : ∀ x ∈ pwPat, chEqCI x '»' = false := by decide
  have hpl : plPassword = '«' :: (pwPat ++ ['»']) := by decide
  set s := t ++ (plPassword ++ X) with hs
  have h1 : s = t ++ '«' :: (pwPat ++ '»' :: X) := by
    rw [hs, hpl]
    simp [List.append_assoc]
  have step1 :
      replaceAllFuel chEqCI pwPat bulletMask s.length s =
        replaceAllFuel chEqCI pwPat bulletMask s.length t ++
          replaceAllFuel chEqCI pwPat bulletMask s.length ('«' :: (pwPat ++ '»' :: X)) := by
    calc replaceAllFuel chEqCI pwPat bulletMask s.length s
        = replaceAllFuel chEqCI pwPat bulletMask s.length
            (t ++ '«' :: (pwPat ++ '»' :: X)) := by rw [← h1]
      _ = _ := by
          refine replaceAllFuel_append_hd chEqCI pwPat bulletMask '«' hz1
            t.length t (pwPat ++ '»' :: X) s.length (le_refl _) ?_
          rw [← h1]
  have h2 : ('«' :: (pwPat ++ '»' :: X)) = ('«' :: pwPat) ++ '»' :: X := by
    simp
  have step2 :
      replaceAllFuel chEqCI pwPat bulletMask s.length ('«' :: (pwPat ++ '»' :: X)) =
        replaceAllFuel chEqCI pwPat bulletMask s.length (('«' :: pwPat) ++ ['»']) ++
          replaceAllFuel chEqCI pwPat bulletMask s.length X := by
    rw [h2]
    refine replaceAllFuel_append_last chEqCI pwPat bulletMask hpw '»' hz2
      ('«' :: pwPat).length ('«' :: pwPat) X s.length (le_refl _) ?_
    have : (('«' :: pwPat) ++ '»' :: X).length ≤ s.length := by
      rw [h1, h2]
      simp
    exact this
  have hplc : ('«' :: pwPat) ++ ['»'] = plPassword := by decide
  have hmaskpl :
      replaceAllFuel chEqCI pwPat bulletMask s.length plPassword = maskedPl := by
    rw [← maskPassword_eq_fuel plPassword s.length
      (by rw [hs]; simp; omega)]
    decide
  have hmt : replaceAllFuel chEqCI pwPat bulletMask s.length t = maskPassword t := by
    rw [maskPassword_eq_fuel t s.length (by rw [hs]; simp)]
  have hmX : replaceAllFuel chEqCI pwPat bulletMask s.length X = maskPassword X := by
    rw [maskPassword_eq_fuel X s.length (by rw [hs]; simp; omega)]
  calc maskPassword s
      = replaceAllFuel chEqCI pwPat bulletMask s.length s :=
        maskPassword_eq_fuel s s.length (le_refl _)
    _ = _ := by rw [step1, step2, hplc, hmaskpl, hmt, hmX]

theorem maskPassword_interc : ∀ (parts : List (List Char)),
    maskPassword (interc plPassword parts) =
      interc maskedPl (parts.map maskPassword)
  | [] => by decide
  | [t] => rfl
  | t :: t2 :: ts => by
    have hrw : interc plPassword (t :: t2 :: ts) =
        t ++ (plPassword ++ interc plPassword (t2 :: ts)) := by
      rw [show interc plPassword (t :: t2 :: ts) =
        t ++ plPassword ++ interc plPassword (t2 :: ts) from rfl, List.append_assoc]
    rw [hrw, maskPassword_glue, maskPassword_interc (t2 :: ts)]
    rw [show (t :: t2 :: ts).map maskPassword =
      maskPassword t :: (t2 :: ts).map maskPassword from rfl]
    rw [show interc maskedPl (maskPassword t :: (t2 :: ts).map maskPassword) =
      maskPassword t ++ maskedPl ++ interc maskedPl ((t2 :: ts).map maskPassword) by
        cases h : (t2 :: ts).map maskPassword with
        | nil => simp at h
        | cons a b => rfl]
    rw [List.append_assoc]

theorem maskPassword_keeps (p t : List Char) (hp : p ≠ [])
    (hb : '•' ∉ p) (ht : ¬ p <:+: t) : ¬ p <:+: maskPassword t := by
  intro h
  rw [maskPassword_eq_fuel t t.length (le_refl _),
    replaceAllFuel_eq_interc] at h
  rcases interc_infix_cases bulletMask (by decide) p hp
      (by intro x hx; rw [show bulletMask.head? = some '•' from rfl] at hx;
          cases hx; exact hb)
      (by intro x hx; rw [show bulletMask.getLast? = some '•' from rfl] at hx;
          cases hx; exact hb)
      (splitOnFuel chEqCI pwPat t.length t) h with h1 | ⟨u, hu, hu2⟩
  · refine hb ?_
    have hsub := h1.subset
    have hhead := hsub (List.head_mem hp)
    have hall : ∀ c ∈ bulletMask, c = '•' := by decide
    rw [← hall _ hhead]
    exact List.head_mem hp
  · exact ht (hu2.trans (splitOnFuel_mem_infix_subject chEqCI pwPat t.length t u hu))

theorem maskedPl_infix_chars (p : List Char) (hp : p ≠ [])
    (h : p <:+: maskedPl) : '«' ∈ p ∨ '•' ∈ p ∨ '»' ∈ p := by
  have hsub := h.subset
  have hhead := hsub (List.head_mem hp)
  have hall : ∀ c ∈ maskedPl, c = '«' ∨ c = '•' ∨ c = '»' := by decide
  rcases hall _ hhead with h1 | h1 | h1
  · exact Or.inl (h1 ▸ List.head_mem hp)
  · exact Or.inr (Or.inl (h1 ▸ List.head_mem hp))
  · exact Or.inr (Or.inr (h1 ▸ List.head_mem hp))

/-- Masking an intercalation of password placeholders between fragments
that avoid the raw password cannot reintroduce the raw password, when the
password contains none of the placeholder/mask characters. -/
theorem maskPassword_interc_keeps (p : List Char) (hp : p ≠ [])
    (hlq : '«' ∉ p) (hrq : '»' ∉ p) (hb : '•' ∉ p)
    (parts : List (List Char)) (hparts : ∀ t ∈ parts, ¬ p <:+: t) :
    ¬ p <:+: maskPassword (interc plPassword parts) := by
  intro h
  rw [maskPassword_interc] at h
  rcases interc_infix_cases maskedPl (by decide) p hp
      (by intro x hx; rw [show maskedPl.head? = some '«' from rfl] at hx;
          cases hx; exact hlq)
      (by intro x hx; rw [show maskedPl.getLast? = some '»' from rfl] at hx;
          cases hx; exact hrq)
      (parts.map maskPassword) h with h1 | ⟨u, hu, hu2⟩
  · rcases maskedPl_infix_chars p hp h1 with h2 | h2 | h2
    · exact hlq h2
    · exact hb h2
    · exact hrq h2
  · obtain ⟨t, hmem, rfl⟩ := List.mem_map.mp hu
    exact maskPassword_keeps p t hp hb (hparts t hmem) hu2

/-- Sanitization soundness: whatever the instruction and the username, if
the supplied password is non-empty and contains none of `«`, `»`, `•`,
then the raw password does not occur in the sanitized instruction handed
to `nova.act`. -/
theorem sanitizeInstruction_no_password (u : Option (List Char))
    (p instr : List Char) (hp : p ≠ [])
    (hlq : '«' ∉ p) (hrq : '»' ∉ p) (hb : '•' ∉ p) :
    ¬ p <:+: sanitizeInstruction u (some p) instr := by
  rw [sanitizeInstruction]
  set s1 := credReplace u plUser instr with hs1
  rw [show credReplace (some p) plPassword s1 = pyReplace s1 p plPassword by
    rw [credReplace, if_neg (by simpa using hp)]]
  rw [show pyReplace s1 p plPassword =
      replaceAllFuel chEq p plPassword s1.length s1 by
    rw [pyReplace, if_neg (by simpa using hp)]]
  rw [replaceAllFuel_eq_interc]
  refine maskPassword_interc_keeps p hp hlq hrq hb _ ?_
  intro t ht
  have := splitOnFuel_mem_no_match chEq p hp s1.length s1 t (le_refl _) ht
  intro hinf
  rw [(occursPat_chEq_iff p t).2 hinf] at this
  cases this

/-! ## Session registry (`active_sessions` in `nova_mcp.py` and
`session_manager`)

The registry is a mapping from session id to a mutable record.  We model
it as an association list mutated functionally; dictionary assignment is
modelled as remove-then-prepend, `pop` as removal, and in-place field
update as `updateSession` (a no-op when the key is absent, matching the
`if session_id in active_sessions:` guards). -/

structure RecordedResult where
  action : Option (List Char) := none
  executed : List Char := []
  directAction : Bool := false
  deriving Repr, DecidableEq

structure SessionEntry where
  status : String := "ready"
  url : Option String := none
  errorMsg : Option String := none
  complete : Bool := false
  lastUpdated : Int := 0
  novaInstance : Option Nat := none
  executor : Option Nat := none
  logsDir : Option String := none
  novaSessionId : Option String := none
  results : List RecordedResult := []
  deriving Repr, DecidableEq

abbrev Registry := List (String × SessionEntry)

def lookupSession : Registry → String → Option SessionEntry
  | [], _ => none
  | (k, e) :: rest, sid => if k = sid then some e else lookupSession rest sid

def removeSession (reg : Registry) (sid : String) : Registry :=
  reg.filter (fun kv => kv.1 != sid)

def setSession (reg : Registry) (sid : String) (e : SessionEntry) : Registry :=
  (sid, e) :: removeSession reg sid

def updateSession (reg : Registry) (sid : String)
    (f : SessionEntry → SessionEntry) : Registry :=
  reg.map (fun kv => if kv.1 = sid then (kv.1, f kv.2) else kv)

/-! ## Garbage collection pass of `list_browser_sessions`
(`nova_mcp.py`, lines 360–388)

The pass removes every entry with `complete == True` whose `last_updated`
is more than 600 seconds old, closing the Nova instance and shutting down
the executor of each removed entry first. -/

structure GcEffects where
  closedInstances : List Nat := []
  shutdownExecutors : List Nat := []
  deriving Repr, DecidableEq

/-- The removal condition of the cleanup loop:
`session_data.get("complete", False) and (current_time - session_data.get("last_updated", 0) > 600)`. -/
def gcExpired (now : Int) (e : SessionEntry) : Bool :=
  e.complete && decide (now - e.lastUpdated > 600)

def listSessionsGc (now : Int) : Registry → Registry × GcEffects
  | [] => ([], {})
  | (sid, e) :: rest =>
    let r := listSessionsGc now rest
    if gcExpired now e then
      (r.1, { closedInstances := e.novaInstance.toList ++ r.2.closedInstances,
              shutdownExecutors := e.executor.toList ++ r.2.shutdownExecutors })
    else ((sid, e) :: r.1, r.2)

theorem listSessionsGc_mem (now : Int) :
    ∀ (reg : Registry) (sid : String) (e : SessionEntry),
      ((sid, e) ∈ (listSessionsGc now reg).1 ↔
        (sid, e) ∈ reg ∧ gcExpired now e = false) := by
  intro reg
  match reg with
  | [] =>
    intro sid e
    constructor
    · intro h; exact absurd h (by simp [listSessionsGc])
    · intro h; exact absurd h.1 (List.not_mem_nil _)
  | (k, e0) :: rest =>
    intro sid e
    by_cases hgc : gcExpired now e0 = true
    · rw [show (listSessionsGc now ((k, e0) :: rest)).1 =
        (listSessionsGc now rest).1 by simp [listSessionsGc, hgc]]
      rw [listSessionsGc_mem now rest sid e]
      constructor
      · rintro ⟨hm, hex⟩
        exact ⟨List.mem_cons_of_mem _ hm, hex⟩
      · rintro ⟨hm, hex⟩
        rcases List.mem_cons.mp hm with heq | hm2
        · exfalso
          have : e = e0 := congrArg Prod.snd heq
          rw [this, hgc] at hex
          cases hex
        · exact ⟨hm2, hex⟩
    · rw [show (listSessionsGc now ((k, e0) :: rest)).1 =
        (k, e0) :: (listSessionsGc now rest).1 by
          simp [listSessionsGc, hgc]]
      rw [List.mem_cons, listSessionsGc_mem now rest sid e]
      constructor
      · rintro (heq | ⟨hm, hex⟩)
        · refine ⟨?_, ?_⟩
          · rw [heq]; exact List.mem_cons_self ..
          · have : e = e0 := congrArg Prod.snd heq
            rw [this]
            simpa using hgc
        · exact ⟨List.mem_cons_of_mem _ hm, hex⟩
      · rintro ⟨hm, hex⟩
        rcases List.mem_cons.mp hm with heq | hm2
        · exact Or.inl heq
        · exact Or.inr ⟨hm2, hex⟩

theorem listSessionsGc_closes (now : Int) :
    ∀ (reg : Registry) (sid : String) (e : SessionEntry),
      (sid, e) ∈ reg → gcExpired now e = true →
      (∀ i, e.novaInstance = some i → i ∈ (listSessionsGc now reg).2.closedInstances) ∧
      (∀ x, e.executor = some x → x ∈ (listSessionsGc now reg).2.shutdownExecutors) := by
  intro reg
  match reg with
  | [] =>
    intro sid e hm
    exact absurd hm (List.not_mem_nil _)
  | (k, e0) :: rest =>
    intro sid e hm hex
    rcases List.mem_cons.mp hm with heq | hm2
    · have he : e = e0 := congrArg Prod.snd heq
      subst he
      rw [show (listSessionsGc now ((k, e) :: rest)).2 =
        { closedInstances := e.novaInstance.toList ++ (listSessionsGc now rest).2.closedInstances,
          shutdownExecutors := e.executor.toList ++ (listSessionsGc now rest).2.shutdownExecutors }
        by simp [listSessionsGc, hex]]
      constructor
      · intro i hi
        exact List.mem_append_left _ (by simp [hi])
      · intro x hx
        exact List.mem_append_left _ (by simp [hx])
    · have ih := listSessionsGc_closes now rest sid e hm2 hex
      by_cases hgc : gcExpired now e0 = true
      · rw [show (listSessionsGc now ((k, e0) :: rest)).2 =
          { closedInstances := e0.novaInstance.toList ++ (listSessionsGc now rest).2.closedInstances,
            shutdownExecutors := e0.executor.toList ++ (listSessionsGc now rest).2.shutdownExecutors }
          by simp [listSessionsGc, hgc]]
        exact ⟨fun i hi => List.mem_append_right _ (ih.1 i hi),
          fun x hx => List.mem_append_right _ (ih.2 x hx)⟩
      · rw [show (listSessionsGc now ((k, e0) :: rest)).2 =
          (listSessionsGc now rest).2 by simp [listSessionsGc, hgc]]
        exact ih

/-! ## Structured tool results

Every tool returns a dictionary; we model the fields the claims are
about. -/

structure ToolResult where
  sessionId : Option String := none
  success : Bool := false
  errorMsg : Option String := none
  errorCode : Option String := none
  status : Option String := none
  message : Option String := none
  deriving Repr, DecidableEq

/-! ## Ending a session (`browser_control.end_session` and
`actions_end.end_session_action`)

Close failures (`__exit__`, the `close()` fallback, executor shutdown) are
caught and logged inside `end_session_action`; the registry entry is
popped regardless, and the returned dictionary reports success. -/

structure CloseEnv where
  exitOk : Bool := true
  closeOk : Bool := true
  shutdownOk : Bool := true
  deriving Repr, DecidableEq

def endSessionAction (novaAvailable : Bool) (reg : Registry) (sid : String) :
    Registry × ToolResult :=
  if sid = "" then
    (reg, { errorMsg := some "Missing required parameter: session_id",
            errorCode := some "MISSING_PARAMETER" })
  else if ¬ novaAvailable then
    (reg, { errorMsg := some "Nova Act SDK is not installed. Please install it with: pip install nova-act",
            errorCode := some "NOVA_ACT_NOT_AVAILABLE" })
  else
    match lookupSession reg sid with
    | none =>
      (reg, { errorMsg := some ("Session not found: " ++ sid),
              errorCode := some "SESSION_NOT_FOUND" })
    | some e =>
      match e.novaInstance with
      | none =>
        (removeSession reg sid,
         { sessionId := some sid, success := true,
           message := some "Session registry cleaned up (no browser instance found)" })
      | some _ =>
        (removeSession reg sid,
         { sessionId := some sid, success := true,
           message := some "Session closed successfully" })

/-- The `end_session` tool wrapper (`browser_control.py`, lines 289–357):
validates the session id, returns a structured `SESSION_NOT_FOUND` result
for an unknown id, and otherwise dispatches `end_session_action` on the
session's executor and cleans the executor up. -/
def endSessionTool (novaAvailable : Bool) (reg : Registry) (sid : String) :
    Registry × ToolResult :=
  if sid = "" then
    (reg, { errorMsg := some "Session ID is required to end a session",
            errorCode := some "MISSING_PARAMETER" })
  else
    match lookupSession reg sid with
    | none =>
      (reg, { sessionId := some sid, success := false,
              errorMsg := some ("Session " ++ sid ++ " not found or already ended"),
              errorCode := some "SESSION_NOT_FOUND" })
    | some _ => endSessionAction novaAvailable reg sid

/-- The input-validation prefix of the `execute_instruction` tool
(`browser_control.py`, lines 234–254): `some` is an early structured error
return, `none` means the session exists and dispatch proceeds. -/
def executeInstructionGuard (reg : Registry) (sid task : String) :
    Option ToolResult :=
  if sid = "" then
    some { errorMsg := some "Session ID is required for execute_instruction",
           errorCode := some "MISSING_PARAMETER" }
  else if task = "" then
    some { errorMsg := some "Task/instruction is required",
           errorCode := some "MISSING_PARAMETER" }
  else
    match lookupSession reg sid with
    | none =>
      some { errorMsg := some ("Session " ++ sid ++ " not found or no longer active"),
             errorCode := some "SESSION_NOT_FOUND" }
    | some _ => none

/-! ## Inspection (`actions_inspect.py`)

`_inspect_browser` reads the URL and the title independently, each in its
own `try`, optionally captures a screenshot, and always returns
`success: True` once the session and its Nova instance were found.  The
Playwright page is modelled by an environment of read outcomes. -/

def b64Table : List Char :=
  "ABCDEFGHIJKLMNOPQRSTUVWXYZabcdefghijklmnopqrstuvwxyz0123456789+/".toList

def b64Char (n : Nat) : Char := b64Table.getD n '='

/-- Standard base64 of a byte list, as `base64.b64encode` produces. -/
def base64Encode : List Nat → List Char
  | [] => []
  | [a] => [b64Char (a / 4), b64Char (a % 4 * 16), '=', '=']
  | [a, b] => [b64Char (a / 4), b64Char (a % 4 * 16 + b / 16), b64Char (b % 16 * 4), '=']
  | a :: b :: c :: rest =>
    b64Char (a / 4) :: b64Char (a % 4 * 16 + b / 16) ::
      b64Char (b % 16 * 4 + c / 64) :: b64Char (c % 64) :: base64Encode rest

/-- The inline screenshot payload:
`"data:image/jpeg;base64," + base64.b64encode(bytes).decode()`. -/
def dataUrlOfBytes (bs : List Nat) : String :=
  "data:image/jpeg;base64," ++ String.mk (base64Encode bs)

structure Diag where
  dtype : String
  content : String
  source : String
  deriving Repr, DecidableEq

structure ContentItem where
  ctype : String
  text : String := ""
  imgData : String := ""
  caption : String := ""
  deriving Repr, DecidableEq

structure InspectResult where
  sessionId : String := ""
  currentUrl : String := ""
  pageTitle : String := ""
  content : List ContentItem := []
  agentThinking : List Diag := []
  screenshotFilePath : Option String := none
  success : Bool := false
  errorMsg : Option String := none
  errorCode : Option String := none
  deriving Repr, DecidableEq

structure InspectEffects where
  captureCalled : Bool := false
  fileWritten : Option (String × List Nat) := none
  deriving Repr, DecidableEq

/-- Outcomes of the machine-level operations `_inspect_browser` performs
against the Playwright page and the filesystem.  `fileTag` stands for the
`int(time.time())_uuid4().hex[:8]` filename component; `resolvedLogsDir`
is the outcome of `_normalize_logs_dir` (the artifact-path resolver of
`utils.py`, consulted only when the session carries no cached
`logs_dir`). -/
structure PageEnv where
  urlRead : Except String String
  titleRead : Except String String
  capture : Except String (List Nat)
  saveResult : Except String Unit := .ok ()
  fileTag : String := "shot"
  resolvedLogsDir : Option String := none
  deriving Repr

/-- Diagnostic entry recorded when reading `nova.page.url` throws. -/
def urlErrDiag (e : String) : Diag :=
  ⟨"system_error", "Exception getting browser URL via nova.page.url: " ++ e,
   "inspect_browser"⟩

/-- Diagnostic entry recorded when `nova.page.title()` throws. -/
def titleErrDiag (e : String) : Diag :=
  ⟨"system_error", "Exception getting page title via nova.page.title(): " ++ e,
   "inspect_browser"⟩

/-- Diagnostic entry recorded when `nova.page.screenshot()` throws. -/
def shotErrDiag (e : String) : Diag :=
  ⟨"system_error", "Error capturing screenshot via nova.page.screenshot(): " ++ e,
   "inspect_browser"⟩

/-- Appending of the screenshot status message to `agent_thinking`
(lines 220–226), skipped when an entry with the same content is already
present. -/
def applyStatusMsg (diags : List Diag) (statusMsg : Option String) : List Diag :=
  match statusMsg with
  | some m =>
    if diags.any (fun d => d.content = m) then diags
    else diags ++ [⟨"system_info", m, "inspect_browser"⟩]
  | none => diags

/-- The screenshot block of `_inspect_browser` (lines 147–193): inline
data-URL, saved file path, status message, diagnostics, and effects. -/
def screenshotStep (maxInline : Nat) (sid : String) (env : PageEnv)
    (logsDir : Option String) (includeScreenshot : Bool) :
    Option String × Option String × Option String × List Diag × InspectEffects :=
  if includeScreenshot then
    match env.capture with
    | .error e =>
      (none, none,
       some ("Error capturing screenshot via nova.page.screenshot(): " ++ e),
       [shotErrDiag e], { captureCalled := true })
    | .ok bytes =>
      if bytes.isEmpty then
        (none, none, some "Screenshot capture attempt returned no data.",
         [], { captureCalled := true })
      else if bytes.length ≤ maxInline then
        (some (dataUrlOfBytes bytes), none, none, [],
         { captureCalled := true })
      else
        let effectiveLogsDir :=
          logsDir.getD ("/tmp/nova_mcp_server_logs/" ++ sid)
        let screenshotsDir := effectiveLogsDir ++ "/screenshots"
        match env.saveResult with
        | .ok _ =>
          let path := screenshotsDir ++ "/screenshot_" ++ env.fileTag ++ ".jpg"
          (none, some path,
           some ("Screenshot captured. Too large for inline, saved to: " ++ path),
           [], { captureCalled := true, fileWritten := some (path, bytes) })
        | .error e =>
          (none, none,
           some ("Screenshot captured but failed to save to file: " ++ e),
           [], { captureCalled := true })
  else (none, none, none, [], { captureCalled := false })

def inspectBrowserAction (novaAvailable : Bool) (maxInline : Nat)
    (reg : Registry) (sid : String) (env : PageEnv)
    (includeScreenshot : Bool) : InspectResult × InspectEffects :=
  if sid = "" then
    ({ errorMsg := some "Missing required parameter: session_id",
       errorCode := some "MISSING_PARAMETER" }, {})
  else if ¬ novaAvailable then
    ({ errorMsg := some "Nova Act SDK is not installed. Please install it with: pip install nova-act",
       errorCode := some "NOVA_ACT_NOT_AVAILABLE" }, {})
  else
    match lookupSession reg sid with
    | none =>
      ({ sessionId := sid, errorMsg := some ("Session not found: " ++ sid),
         errorCode := some "SESSION_NOT_FOUND" }, {})
    | some entry =>
      if entry.novaInstance.isNone then
        ({ sessionId := sid,
           errorMsg := some ("Nova instance not found for session: " ++ sid),
           errorCode := some "NOVA_INSTANCE_NOT_FOUND" }, {})
      else
        let logsDir := match entry.logsDir with
          | some d => some d
          | none => env.resolvedLogsDir
        let urlPart : String × List Diag := match env.urlRead with
          | .ok u => (u, [])
          | .error e => ("Unknown URL", [urlErrDiag e])
        let titlePart : String × List Diag := match env.titleRead with
          | .ok t => (t, [])
          | .error e => ("Unknown Title", [titleErrDiag e])
        let shot := screenshotStep maxInline sid env logsDir includeScreenshot
        let inline := shot.1
        let filePath := shot.2.1
        let statusMsg := shot.2.2.1
        let diags := urlPart.2 ++ titlePart.2 ++ shot.2.2.2.1
        let contentItems :=
          (if includeScreenshot && inline.isSome then
            [⟨"image_base64", "", inline.getD "", "Current viewport"⟩]
           else []) ++
          [⟨"text",
            "Current URL: " ++ urlPart.1 ++ "\nPage Title: " ++ titlePart.1, "", ""⟩]
        let diagsFinal := applyStatusMsg diags statusMsg
        ({ sessionId := sid, currentUrl := urlPart.1, pageTitle := titlePart.1,
           content := contentItems, agentThinking := diagsFinal,
           screenshotFilePath := filePath, success := true }, shot.2.2.2.2)

/-! ## Starting a session

Two generations coexist in the source:

* `actions_start.initialize_browser_session` (modular): on any exception
  during construction the registry entry for the session id is *popped*
  (`active_sessions.pop(session_id, None)`), the partially constructed
  `NovaAct` instance is *not* closed, and a structured result with
  `success: False`, `status: "error"` and the exception message is
  returned;
* `nova_mcp.start_browser_session` (monolithic `control_browser`): on any
  exception the partially constructed instance is closed defensively, the
  registry entry (inserted with `status: "initializing"` before the worker
  ran) is updated to `status: "error"` with the message retained, and the
  raised exception is converted by the outer handler into a structured
  JSON-RPC error response. -/

structure StartResult where
  sessionId : Option String := none
  novaSessionId : Option String := none
  identity : Option String := none
  success : Bool := false
  errorMsg : Option String := none
  errorCode : Option String := none
  status : Option String := none
  url : Option String := none
  logsDir : Option String := none
  deriving Repr, DecidableEq

/-- Outcome of the `NovaAct(...)` construction / `start()` / initial
`act()` / logs-dir resolution sequence: the SDK session id and logs dir on
success, or the exception message. -/
def InitOutcome : Type := Except String (Option String × Option String)

/-- Model of `actions_start.initialize_browser_session` (lines 39–229).
The returned `Bool` reports whether any `close`/`__exit__` was attempted
on the Nova instance (the source has no such call on the error path). -/
def initializeBrowserSession (novaAvailable : Bool) (apiKey : Option String)
    (url identity sid : String) (now : Int) (reg : Registry)
    (init : InitOutcome) : Registry × StartResult × Bool :=
  if ¬ novaAvailable then
    (reg, { errorMsg := some "Nova Act SDK is not installed. Please install it with: pip install nova-act",
            errorCode := some "NOVA_ACT_NOT_AVAILABLE" }, false)
  else
    match apiKey with
    | none =>
      (reg, { errorMsg := some "Nova Act API key not found. Please set it in your MCP config or as an environment variable.",
              errorCode := some "MISSING_API_KEY" }, false)
    | some _ =>
      if url = "" then
        (reg, { errorMsg := some "URL (starting_page) is required to start a session.",
                errorCode := some "MISSING_PARAMETER" }, false)
      else
        match init with
        | .ok (nsid, logsDir) =>
          (setSession reg sid
            { status := "ready", url := some url, novaInstance := some 0,
              logsDir := logsDir, novaSessionId := nsid, lastUpdated := now },
           { sessionId := some sid, novaSessionId := nsid,
             identity := some identity, success := true,
             status := some "ready", url := some url, logsDir := logsDir },
           false)
        | .error e =>
          (removeSession reg sid,
           { sessionId := some sid, identity := some identity,
             success := false, errorMsg := some e,
             status := some "error", url := some url },
           false)

/-- Outcome of the legacy `start_browser_session` worker body: the current
URL on success, or (whether the `NovaAct` instance had already been
constructed, the exception message). -/
def LegacyInitOutcome : Type := Except (Bool × String) String

/-- Model of the `action == "start"` branch of `nova_mcp.browser_session`
(lines 464–650), including the worker `start_browser_session`
(lines 510–623) and the outer exception-to-error-response conversion.
The returned `Bool` reports whether a defensive close of the Nova
instance was attempted. -/
def startBrowserSessionLegacy (sid url : String) (now : Int) (reg : Registry)
    (init : LegacyInitOutcome) : Registry × StartResult × Bool :=
  let reg1 := setSession reg sid
    { status := "initializing", url := some url, errorMsg := none,
      complete := false, lastUpdated := now, executor := some 0 }
  match init with
  | .ok currentUrl =>
    (updateSession reg1 sid (fun e =>
      { e with status := "browser_ready", url := some currentUrl,
               novaInstance := some 0, errorMsg := none,
               lastUpdated := now }),
     { sessionId := some sid, success := true, status := some "ready",
       url := some currentUrl },
     false)
  | .error (novaCreated, msg) =>
    (updateSession reg1 sid (fun e =>
      { e with status := "error", errorMsg := some msg, novaInstance := none,
               lastUpdated := now }),
     { sessionId := some sid, success := false,
       errorMsg := some ("Error starting browser session: " ++
         ("Error starting browser session: " ++ msg)) },
     novaCreated)

/-! ## Retry policy of `execute_session_action`

Modelled from the spec: the executing module
`src/nova_mcp_server/tools/actions_execute.py` (`execute_session_action`,
`MAX_RETRY_ATTEMPTS`) is not part of the provided sources — only its
callers and its re-exported constant appear in `browser_control.py` —
so the retry controller below follows the specification text: "on failure
classified as transient (message contains `timeout` or `navigation`),
attempts a page reload and retries the instruction, up to
`MAX_RETRY_ATTEMPTS` (default 2) additional attempts; non-transient
failures are not retried". -/

def MAX_RETRY_ATTEMPTS : Nat := 2

/-- Modelled from the spec: transient classification — the failure message
contains `timeout` or `navigation`. -/
def isTransientFailure (msg : String) : Bool :=
  occursPat chEq "timeout".toList msg.toList ||
    occursPat chEq "navigation".toList msg.toList

structure RetryTrace where
  result : Except String String
  attemptsUsed : Nat
  reloads : Nat

/-- Modelled from the spec: the attempt loop.  `env k` is the outcome of
attempt `k`; a reload is performed before each retry. -/
def retryFrom (env : Nat → Except String String) : Nat → Nat → RetryTrace
  | 0, k =>
    match env k with
    | .ok v => { result := .ok v, attemptsUsed := 1, reloads := 0 }
    | .error m => { result := .error m, attemptsUsed := 1, reloads := 0 }
  | b + 1, k =>
    match env k with
    | .ok v => { result := .ok v, attemptsUsed := 1, reloads := 0 }
    | .error m =>
      if isTransientFailure m then
        let t := retryFrom env b (k + 1)
        { result := t.result, attemptsUsed := t.attemptsUsed + 1,
          reloads := t.reloads + 1 }
      else { result := .error m, attemptsUsed := 1, reloads := 0 }

/-- Modelled from the spec: `execute` runs the instruction with the
default retry budget. -/
def executeWithRetry (env : Nat → Except String String) : RetryTrace :=
  retryFrom env MAX_RETRY_ATTEMPTS 0

theorem retryFrom_attempts_le (env : Nat → Except String String) :
    ∀ (budget k : Nat), (retryFrom env budget k).attemptsUsed ≤ budget + 1 := by
  intro budget
  induction budget with
  | zero =>
    intro k
    cases henv : env k <;> simp [retryFrom, henv]
  | succ b ih =>
    intro k
    cases henv : env k with
    | ok v => simp [retryFrom, henv]
    | error m =>
      by_cases ht : isTransientFailure m = true
      · have := ih (k + 1)
        simp only [retryFrom, henv, ht, if_pos]
        omega
      · simp [retryFrom, henv, ht]

/-! ## Direct Playwright pattern fast path (`nova_mcp.py`, lines 761–796)

`execute_instruction` matches the original instruction against

* `^\s*Type\s+['\"](.*)['\"]\s+into\s+element\s+['\"](.*)['\"]\s*$` and
* `^\s*Click\s+element\s+['\"](.*)['\"]\s*$`

(`re.IGNORECASE`); a match is handled by `page.fill` / `page.click`
directly and `nova.act` is not called for the instruction.  The matchers
below implement those two anchored regexes: `\s` is Python's
`[ \t\n\r\f\v]`, `.` excludes the newline, and the greedy `(.*)` takes
the longest newline-free capture for which the rest of the pattern still
matches. -/

def isWsChar (c : Char) : Bool :=
  c = ' ' || c = '\t' || c = '\n' || c = '\r' ||
    c = Char.ofNat 11 || c = Char.ofNat 12

def isQuoteChar (c : Char) : Bool := c = '\'' || c = '"'

/-- Strip a case-insensitive literal keyword from the front. -/
def ciStrip : List Char → List Char → Option (List Char)
  | [], s => some s
  | _ :: _, [] => none
  | k :: kr, c :: cr => if chEqCI k c then ciStrip kr cr else none

def dropWs (s : List Char) : List Char := s.dropWhile isWsChar

/-- Match `\s+` (at least one whitespace, then greedily all of it). -/
def dropWs1 : List Char → Option (List Char)
  | [] => none
  | c :: rest => if isWsChar c then some (dropWs rest) else none

/-- Match a trailing `(.*)['\"]\s*$`: the greedy capture runs to the last
quote that is followed only by whitespace. -/
def lastQuoteSplit (r : List Char) : Option (List Char) :=
  match r.reverse.dropWhile isWsChar with
  | [] => none
  | q2 :: restRev =>
    if isQuoteChar q2 then
      let cap := restRev.reverse
      if cap.contains '\n' then none else some cap
    else none

/-- `^\s*Click\s+element\s+['\"](.*)['\"]\s*$`, case-insensitive,
returning the selector capture. -/
def matchClickDirect (s : List Char) : Option (List Char) :=
  match ciStrip "click".toList (dropWs s) with
  | none => none
  | some s2 =>
    match dropWs1 s2 with
    | none => none
    | some s3 =>
      match ciStrip "element".toList s3 with
      | none => none
      | some s4 =>
        match dropWs1 s4 with
        | none => none
        | some [] => none
        | some (q :: r) => if isQuoteChar q then lastQuoteSplit r else none

/-- The part of the `Type … into element …` pattern after the first
capture: `['\"]\s+into\s+element\s+['\"](.*)['\"]\s*$`, returning the
selector capture. -/
def typeTailMatch (r : List Char) : Option (List Char) :=
  match r with
  | [] => none
  | q2 :: r1 =>
    if isQuoteChar q2 then
      match dropWs1 r1 with
      | none => none
      | some r2 =>
        match ciStrip "into".toList r2 with
        | none => none
        | some r3 =>
          match dropWs1 r3 with
          | none => none
          | some r4 =>
            match ciStrip "element".toList r4 with
            | none => none
            | some r5 =>
              match dropWs1 r5 with
              | none => none
              | some [] => none
              | some (q3 :: r6) =>
                if isQuoteChar q3 then lastQuoteSplit r6 else none
    else none

/-- `^\s*Type\s+['\"](.*)['\"]\s+into\s+element\s+['\"](.*)['\"]\s*$`,
case-insensitive, returning the text and selector captures (the first
capture greedy: the longest newline-free prefix whose remainder still
matches). -/
def matchTypeDirect (s : List Char) : Option (List Char × List Char) :=
  match ciStrip "type".toList (dropWs s) with
  | none => none
  | some s2 =>
    match dropWs1 s2 with
    | none => none
    | some [] => none
    | some (q1 :: r) =>
      if isQuoteChar q1 then
        match (List.range (r.length + 1)).reverse.find?
            (fun i => !((r.take i).contains '\n') && (typeTailMatch (r.drop i)).isSome) with
        | none => none
        | some i =>
          match typeTailMatch (r.drop i) with
          | none => none
          | some sel => some (r.take i, sel)
      else none

/-! ## The `execute` worker of `nova_mcp.browser_session`
(lines 697–999)

The worker handles optional credentials, the direct Playwright fast path,
and otherwise delegates to `nova.act` with the (sanitized) instruction.
The machine outcomes are collected in `ExecOutcome`:
`mainActArg` is the instruction handed to `nova.act` on line 801,
`auxActArgs` are the fixed `focus the … field` engine calls of the
credential fallback, `pageActs` the direct Playwright page calls, and
`recorded` the entry appended to the session's `results`. -/

inductive PageAct
  | fillAct (sel text : List Char)
  | clickAct (sel : List Char)
  | keyType (text : List Char)
  deriving Repr, DecidableEq

structure ExecEnv where
  credFillOk : Bool := true
  directOk : Bool := true
  actResult : Except String String := .ok ""

structure ExecOutcome where
  mainActArg : Option (List Char) := none
  auxActArgs : List (List Char) := []
  pageActs : List PageAct := []
  directAction : Bool := false
  recorded : Option RecordedResult := none
  raisedError : Option String := none
  deriving Repr, DecidableEq

def optNonempty (o : Option (List Char)) : Bool :=
  match o with
  | some l => !l.isEmpty
  | none => false

/-- The username fill selector string of line 726. -/
def userFillSel : List Char :=
  "input#username, input[name='username'], input[type='text'], input[name*='user']".toList

/-- The password fill selector string of line 732. -/
def passFillSel : List Char :=
  "input#password, input[name='password'], input[type='password']".toList

/-- The credential-typing block (lines 720–744): direct `page.fill`
calls when they succeed, or the `act("focus the … field")` +
`keyboard.type` fallback when the fill raised. -/
def credActs (credFillOk : Bool) (username password : Option (List Char)) :
    List (List Char) × List PageAct :=
  if credFillOk then
    ([],
     (match username with
      | some u => if u.isEmpty then [] else [PageAct.fillAct userFillSel u]
      | none => []) ++
     (match password with
      | some p => if p.isEmpty then [] else [PageAct.fillAct passFillSel p]
      | none => []))
  else
    ((match username with
      | some u => if u.isEmpty then [] else ["focus the username field".toList]
      | none => []) ++
     (match password with
      | some p => if p.isEmpty then [] else ["focus the password field".toList]
      | none => []),
     (match username with
      | some u => if u.isEmpty then [] else [PageAct.keyType u]
      | none => []) ++
     (match password with
      | some p => if p.isEmpty then [] else [PageAct.keyType p]
      | none => []))

def executeInstructionAction (env : ExecEnv)
    (username password : Option (List Char)) (instr : Option (List Char))
    (schema : Bool) : ExecOutcome :=
  let credsPresent := optNonempty username || optNonempty password
  let origNonempty := optNonempty instr
  -- credential typing block (lines 720–744)
  let credAux : List (List Char) × List PageAct :=
    if credsPresent then credActs env.credFillOk username password else ([], [])
  -- auto-login / sanitization (lines 746–759)
  let origInstr : Option (List Char) :=
    if credsPresent && !origNonempty then some "[Auto-Login]".toList else instr
  let instrToExec : Option (List Char) :=
    if credsPresent then
      if origNonempty then
        some (sanitizeInstruction username password (instr.getD []))
      else some "click the Login button".toList
    else instr
  -- direct pattern fast path (lines 761–796)
  let origForMatch := origInstr.getD []
  match matchTypeDirect origForMatch with
  | some (text, sel) =>
    if env.directOk then
      { auxActArgs := credAux.1, pageActs := credAux.2 ++ [.fillAct sel text],
        directAction := true,
        recorded := some { action := origInstr,
                           executed := "direct_playwright".toList,
                           directAction := true } }
    else
      { auxActArgs := credAux.1, pageActs := credAux.2,
        raisedError := some "Failed direct Playwright action" }
  | none =>
    match matchClickDirect origForMatch with
    | some sel =>
      if env.directOk then
        { auxActArgs := credAux.1, pageActs := credAux.2 ++ [.clickAct sel],
          directAction := true,
          recorded := some { action := origInstr,
                             executed := "direct_playwright".toList,
                             directAction := true } }
      else
        { auxActArgs := credAux.1, pageActs := credAux.2,
          raisedError := some "Failed direct Playwright click" }
    | none =>
      if optNonempty instrToExec || schema then
        let argStr := match instrToExec with
          | some l =>
            if l.isEmpty then "Observe the page and respond based on the schema.".toList
            else l
          | none => "Observe the page and respond based on the schema.".toList
        match env.actResult with
        | .ok _ =>
          { mainActArg := some argStr, auxActArgs := credAux.1,
            pageActs := credAux.2,
            recorded := some { action := origInstr,
                               executed := instrToExec.getD [],
                               directAction := false } }
        | .error e =>
          { mainActArg := some argStr, auxActArgs := credAux.1,
            pageActs := credAux.2, raisedError := some e }
      else
        { auxActArgs := credAux.1, pageActs := credAux.2,
          recorded := some { action := origInstr,
                             executed := instrToExec.getD [],
                             directAction := false } }

/-! ## Helper lemmas about the registry operations -/

theorem lookupSession_removeSession (reg : Registry) (sid : String) :
    lookupSession (removeSession reg sid) sid = none := by
  induction reg with
  | nil => rfl
  | cons kv rest ih =>
    by_cases h : kv.1 = sid
    · simpa [removeSession, List.filter, h] using ih
    · have hb : (kv.1 != sid) = true := by simpa using h
      simp only [removeSession, List.filter, hb] at ih ⊢
      rw [show lookupSession (kv :: List.filter (fun kv => kv.1 != sid) rest) sid =
        if kv.1 = sid then some kv.2
        else lookupSession (List.filter (fun kv => kv.1 != sid) rest) sid by
          cases kv; rfl]
      rw [if_neg h]
      exact ih

theorem lookupSession_setSession (reg : Registry) (sid : String)
    (e : SessionEntry) : lookupSession (setSession reg sid e) sid = some e := by
  simp [setSession, lookupSession]

theorem lookupSession_updateSession (reg : Registry) (sid : String)
    (f : SessionEntry → SessionEntry) :
    lookupSession (updateSession reg sid f) sid =
      (lookupSession reg sid).map f := by
  induction reg with
  | nil => rfl
  | cons kv rest ih =>
    by_cases h : kv.1 = sid
    · cases kv with
      | mk k e =>
        simp only at h
        subst h
        rw [show updateSession ((k, e) :: rest) k f =
          (k, f e) :: updateSession rest k f by simp [updateSession]]
        rw [show lookupSession ((k, f e) :: updateSession rest k f) k =
          some (f e) by simp [lookupSession]]
        rw [show lookupSession ((k, e) :: rest) k = some e by simp [lookupSession]]
        rfl
    · cases kv with
      | mk k e =>
        simp only at h
        simp only [updateSession, List.map] at ih ⊢
        rw [if_neg h]
        rw [show lookupSession ((k, e) :: List.map
          (fun kv => if kv.1 = sid then (kv.1, f kv.2) else kv) rest) sid =
          if k = sid then some e
          else lookupSession (List.map
            (fun kv => if kv.1 = sid then (kv.1, f kv.2) else kv) rest) sid from rfl]
        rw [if_neg h]
        rw [show lookupSession ((k, e) :: rest) sid =
          if k = sid then some e else lookupSession rest sid from rfl]
        rw [if_neg h]
        exact ih

/-! ## Claim theorems -/

/-- C7: the garbage-collection pass of `list_browser_sessions` removes
exactly the registry entries with `complete = true` whose `last_updated`
is older than the 600-second retention window, closing any lingering
automation instance and shutting down any lingering executor of a removed
entry; an entry marked complete more recently, or not marked complete, is
retained. -/
theorem c7_gc_removes_exactly_expired (now : Int) (reg : Registry)
    (sid : String) (e : SessionEntry) (hmem : (sid, e) ∈ reg) :
    ((sid, e) ∈ (listSessionsGc now reg).1 ↔
      ¬ (e.complete = true ∧ now - e.lastUpdated > 600)) ∧
    (e.complete = true → now - e.lastUpdated > 600 →
      (∀ i, e.novaInstance = some i →
        i ∈ (listSessionsGc now reg).2.closedInstances) ∧
      (∀ x, e.executor = some x →
        x ∈ (listSessionsGc now reg).2.shutdownExecutors)) := by
  constructor
  · rw [listSessionsGc_mem now reg sid e]
    constructor
    · rintro ⟨-, hex⟩ ⟨hc, hold⟩
      rw [show gcExpired now e = true by simp [gcExpired, hc, hold]] at hex
      cases hex
    · intro hno
      refine ⟨hmem, ?_⟩
      cases hex : gcExpired now e with
      | false => rfl
      | true =>
        simp only [gcExpired, Bool.and_eq_true, decide_eq_true_eq] at hex
        exact absurd hex hno
  · intro hc hold
    exact listSessionsGc_closes now reg sid e hmem
      (by simp [gcExpired, hc, hold])

/-- Sample registry for the C7 witness: one expired completed entry and
one recently completed entry. -/
def gcEntryOld : SessionEntry :=
  { complete := true, lastUpdated := 0, novaInstance := some 5, executor := some 7 }

def gcEntryNew : SessionEntry := { complete := true, lastUpdated := 900 }

def gcRegSample : Registry := [("old1", gcEntryOld), ("new1", gcEntryNew)]

/-- Witness for C7 at a concrete registry: one entry expired (complete,
updated at time 0, collected at time 1000) and one fresh. -/
theorem c7_gc_removes_exactly_expired_witness :
    (("old1", gcEntryOld) ∈ gcRegSample) ∧
    ((("old1", gcEntryOld) ∈ (listSessionsGc 1000 gcRegSample).1 ↔
      ¬ (gcEntryOld.complete = true ∧ (1000 : Int) - gcEntryOld.lastUpdated > 600)) ∧
    (gcEntryOld.complete = true → (1000 : Int) - gcEntryOld.lastUpdated > 600 →
      (∀ i, gcEntryOld.novaInstance = some i →
        i ∈ (listSessionsGc 1000 gcRegSample).2.closedInstances) ∧
      (∀ x, gcEntryOld.executor = some x →
        x ∈ (listSessionsGc 1000 gcRegSample).2.shutdownExecutors))) :=
  ⟨by decide,
   c7_gc_removes_exactly_expired 1000 gcRegSample "old1" gcEntryOld (by decide)⟩

/-- C9: with `include_screenshot = false`, `inspect_browser` never calls
the page screenshot capture, returns no populated `image_base64` content
entry, and a null `screenshot_file_path`. -/
theorem c9_no_screenshot_when_disabled (novaAvailable : Bool)
    (maxInline : Nat) (reg : Registry) (sid : String) (env : PageEnv) :
    (inspectBrowserAction novaAvailable maxInline reg sid env false).2.captureCalled
        = false ∧
    (inspectBrowserAction novaAvailable maxInline reg sid env false).1.screenshotFilePath
        = none ∧
    ∀ c ∈ (inspectBrowserAction novaAvailable maxInline reg sid env false).1.content,
      c.ctype ≠ "image_base64" := by
  by_cases hsid : sid = ""
  · simp [inspectBrowserAction, hsid, InspectEffects.captureCalled]
  · by_cases hav : novaAvailable
    · cases hlook : lookupSession reg sid with
      | none => simp [inspectBrowserAction, hsid, hav, hlook]
      | some entry =>
        by_cases hnova : entry.novaInstance.isNone
        · simp [inspectBrowserAction, screenshotStep, hsid, hav, hlook, hnova]
        · refine ⟨?_, ?_, ?_⟩
          · simp [inspectBrowserAction, screenshotStep, hsid, hav, hlook, hnova]
          · simp [inspectBrowserAction, screenshotStep, hsid, hav, hlook, hnova]
          · intro c hc
            simp [inspectBrowserAction, screenshotStep, hsid, hav, hlook, hnova] at hc
            rw [hc]
            simp
    · simp [inspectBrowserAction, hsid, hav]

theorem retryFrom_attempts_pos (env : Nat → Except String String) :
    ∀ (budget k : Nat), 1 ≤ (retryFrom env budget k).attemptsUsed := by
  intro budget k
  match budget with
  | 0 => cases henv : env k <;> simp [retryFrom, henv]
  | b + 1 =>
    cases henv : env k with
    | ok v => simp [retryFrom, henv]
    | error m =>
      by_cases ht : isTransientFailure m = true
      · simp only [retryFrom, henv, ht, if_pos]
        omega
      · simp [retryFrom, henv, ht]

theorem retryFrom_error_transient (env : Nat → Except String String)
    (b k : Nat) (m : String) (henv : env k = .error m)
    (ht : isTransientFailure m = true) :
    retryFrom env (b + 1) k =
      { result := (retryFrom env b (k + 1)).result,
        attemptsUsed := (retryFrom env b (k + 1)).attemptsUsed + 1,
        reloads := (retryFrom env b (k + 1)).reloads + 1 } := by
  simp [retryFrom, henv, ht]

/-- C5: the execute retry controller retries only failures whose message
contains `timeout` or `navigation`, performing a page reload before each
retry, for at most `MAX_RETRY_ATTEMPTS = 2` additional attempts; a
non-transient failure is returned immediately with no retry and no
reload. -/
theorem c5_retry_policy (env : Nat → Except String String) :
    (executeWithRetry env).attemptsUsed ≤ 1 + MAX_RETRY_ATTEMPTS ∧
    (∀ m, env 0 = .error m → isTransientFailure m = false →
      (executeWithRetry env).result = .error m ∧
      (executeWithRetry env).attemptsUsed = 1 ∧
      (executeWithRetry env).reloads = 0) ∧
    (∀ m, env 0 = .error m → isTransientFailure m = true →
      1 ≤ (executeWithRetry env).reloads ∧
      2 ≤ (executeWithRetry env).attemptsUsed) := by
  refine ⟨?_, ?_, ?_⟩
  · have := retryFrom_attempts_le env MAX_RETRY_ATTEMPTS 0
    simpa [executeWithRetry] using this
  · intro m henv ht
    simp [executeWithRetry, MAX_RETRY_ATTEMPTS, retryFrom, henv, ht]
  · intro m henv ht
    have hpos := retryFrom_attempts_pos env 1 1
    have heq := retryFrom_error_transient env 1 0 m henv ht
    rw [show executeWithRetry env = retryFrom env (1 + 1) 0 from rfl, heq]
    constructor
    · show 1 ≤ (retryFrom env 1 (0 + 1)).reloads + 1
      omega
    · show 2 ≤ (retryFrom env 1 (0 + 1)).attemptsUsed + 1
      have : (0 : Nat) + 1 = 1 := rfl
      rw [this]
      omega

/-- Witness for C5: a first attempt failing with a timeout message is
reloaded and retried; a validation failure is not. -/
theorem c5_retry_policy_witness :
    ((fun k => if k = 0 then (.error "act timeout exceeded" : Except String String)
               else .ok "done") 0 = .error "act timeout exceeded" ∧
     isTransientFailure "act timeout exceeded" = true) ∧
    (1 ≤ (executeWithRetry (fun k =>
        if k = 0 then .error "act timeout exceeded" else .ok "done")).reloads ∧
     2 ≤ (executeWithRetry (fun k =>
        if k = 0 then .error "act timeout exceeded" else .ok "done")).attemptsUsed) :=
  ⟨⟨rfl, by decide⟩,
   (c5_retry_policy (fun k =>
      if k = 0 then .error "act timeout exceeded" else .ok "done")).2.2
     "act timeout exceeded" rfl (by decide)⟩

/-- C4: `end_session` on an unknown `session_id` returns a structured
result with `success = false` and error code `SESSION_NOT_FOUND` (the
model is a total function, so no exception escapes); and after
`end_session_action` succeeds on an existing session, a subsequent
`execute_instruction` or `inspect_browser` on that id returns a
not-found-class error code without dispatching any page work. -/
theorem c4_end_session_not_found (novaAvailable : Bool) (reg : Registry)
    (sid task : String) (env : PageEnv) (maxInline : Nat)
    (hsid : sid ≠ "") (htask : task ≠ "") (hav : novaAvailable = true) :
    (lookupSession reg sid = none →
      (endSessionTool novaAvailable reg sid).2 =
        { sessionId := some sid, success := false,
          errorMsg := some ("Session " ++ sid ++ " not found or already ended"),
          errorCode := some "SESSION_NOT_FOUND" }) ∧
    (∀ e, lookupSession reg sid = some e →
      (endSessionAction novaAvailable reg sid).2.success = true ∧
      lookupSession (endSessionAction novaAvailable reg sid).1 sid = none ∧
      (∃ tr, executeInstructionGuard (endSessionAction novaAvailable reg sid).1
          sid task = some tr ∧ tr.errorCode = some "SESSION_NOT_FOUND") ∧
      (inspectBrowserAction novaAvailable maxInline
          (endSessionAction novaAvailable reg sid).1 sid env true).1.errorCode =
        some "SESSION_NOT_FOUND" ∧
      (inspectBrowserAction novaAvailable maxInline
          (endSessionAction novaAvailable reg sid).1 sid env true).2.captureCalled =
        false) := by
  subst hav
  constructor
  · intro hlook
    simp [endSessionTool, hsid, hlook]
  · intro e hlook
    have hreg1 : (endSessionAction true reg sid).1 = removeSession reg sid := by
      cases hn : e.novaInstance <;>
        simp [endSessionAction, hsid, hlook, hn]
    have hsucc : (endSessionAction true reg sid).2.success = true := by
      cases hn : e.novaInstance <;>
        simp [endSessionAction, hsid, hlook, hn]
    have hlook2 : lookupSession (endSessionAction true reg sid).1 sid = none := by
      rw [hreg1]
      exact lookupSession_removeSession reg sid
    refine ⟨hsucc, hlook2, ?_, ?_, ?_⟩
    · exact ⟨{ errorMsg := some ("Session " ++ sid ++ " not found or no longer active"),
               errorCode := some "SESSION_NOT_FOUND" },
        by simp [executeInstructionGuard, hsid, htask, hlook2], rfl⟩
    · simp [inspectBrowserAction, hsid, hlook2]
    · simp [inspectBrowserAction, hsid, hlook2, InspectEffects.captureCalled]

/-- Session entry with a live Nova instance, for the C4 witness. -/
def liveEntrySample : SessionEntry := { novaInstance := some 0, executor := some 1 }

/-- Witness for C4 at a concrete one-session registry. -/
theorem c4_end_session_not_found_witness :
    ("s1" ≠ "" ∧ "go" ≠ "" ∧ true = true ∧
      lookupSession ([("s1", liveEntrySample)] : Registry) "s2" = none ∧
      lookupSession ([("s1", liveEntrySample)] : Registry) "s1" = some liveEntrySample) ∧
    ((endSessionTool true [("s1", liveEntrySample)] "s2").2 =
        { sessionId := some "s2", success := false,
          errorMsg := some ("Session " ++ "s2" ++ " not found or already ended"),
          errorCode := some "SESSION_NOT_FOUND" }) ∧
    ((endSessionAction true [("s1", liveEntrySample)] "s1").2.success = true ∧
      lookupSession (endSessionAction true [("s1", liveEntrySample)] "s1").1 "s1" = none ∧
      (∃ tr, executeInstructionGuard
          (endSessionAction true [("s1", liveEntrySample)] "s1").1 "s1" "go" = some tr ∧
          tr.errorCode = some "SESSION_NOT_FOUND") ∧
      (inspectBrowserAction true 1048576
          (endSessionAction true [("s1", liveEntrySample)] "s1").1 "s1"
          ⟨.ok "u", .ok "t", .ok [], .ok (), "shot", none⟩ true).1.errorCode =
        some "SESSION_NOT_FOUND" ∧
      (inspectBrowserAction true 1048576
          (endSessionAction true [("s1", liveEntrySample)] "s1").1 "s1"
          ⟨.ok "u", .ok "t", .ok [], .ok (), "shot", none⟩ true).2.captureCalled =
        false) :=
  ⟨⟨by decide, by decide, rfl, by decide, by decide⟩,
   (c4_end_session_not_found true [("s1", liveEntrySample)] "s2" "go"
      ⟨.ok "u", .ok "t", .ok [], .ok (), "shot", none⟩ 1048576
      (by decide) (by decide) rfl).1 (by decide),
   (c4_end_session_not_found true [("s1", liveEntrySample)] "s1" "go"
      ⟨.ok "u", .ok "t", .ok [], .ok (), "shot", none⟩ 1048576
      (by decide) (by decide) rfl).2 liveEntrySample (by decide)⟩

/-- The file path `_inspect_browser` writes an oversized screenshot to:
the `screenshots` subdirectory of the session's logs directory when one is
known (cached on the session or resolved from the Nova instance), else of
the temp-directory fallback scoped by the session id. -/
def screenshotSavePath (entry : SessionEntry) (env : PageEnv) (sid : String) :
    String :=
  (match entry.logsDir with
   | some d => some d
   | none => env.resolvedLogsDir).getD ("/tmp/nova_mcp_server_logs/" ++ sid) ++
    "/screenshots" ++ "/screenshot_" ++ env.fileTag ++ ".jpg"

/-- C2: when `inspect_browser(include_screenshot=True)` captures
non-empty screenshot bytes, a payload within the inline threshold is
returned as the leading `image_base64` content entry whose data is a
base64 data-URL beginning with `data:image/jpeg;base64,` while
`screenshot_file_path` stays unpopulated; a payload over the threshold is
written (when the write succeeds) to the `screenshots` subdirectory under
the session's logs directory — or a temp path scoped by the session id
when no logs directory is known — with `screenshot_file_path` set to that
file and no inline image returned. -/
theorem c2_screenshot_inline_or_file (maxInline : Nat) (reg : Registry)
    (sid : String) (env : PageEnv) (entry : SessionEntry) (bytes : List Nat)
    (hsid : sid ≠ "") (hlook : lookupSession reg sid = some entry)
    (hnova : entry.novaInstance.isNone = false)
    (hcap : env.capture = .ok bytes) (hne : bytes ≠ []) :
    (bytes.length ≤ maxInline →
      (inspectBrowserAction true maxInline reg sid env true).1.screenshotFilePath
          = none ∧
      (inspectBrowserAction true maxInline reg sid env true).1.content.head? =
        some ⟨"image_base64", "", dataUrlOfBytes bytes, "Current viewport"⟩ ∧
      (∃ tail, dataUrlOfBytes bytes = "data:image/jpeg;base64," ++ tail)) ∧
    (maxInline < bytes.length → env.saveResult = .ok () →
      (inspectBrowserAction true maxInline reg sid env true).1.screenshotFilePath
          = some (screenshotSavePath entry env sid) ∧
      (inspectBrowserAction true maxInline reg sid env true).2.fileWritten
          = some (screenshotSavePath entry env sid, bytes) ∧
      ∀ c ∈ (inspectBrowserAction true maxInline reg sid env true).1.content,
        c.ctype ≠ "image_base64") := by
  constructor
  · intro hle
    refine ⟨?_, ?_, ⟨String.mk (base64Encode bytes), rfl⟩⟩
    · simp [inspectBrowserAction, screenshotStep, hsid, hlook, hnova, hcap, hne, hle]
    · simp [inspectBrowserAction, screenshotStep, hsid, hlook, hnova, hcap, hne, hle]
  · intro hgt hsave
    have hnle : ¬ bytes.length ≤ maxInline := by omega
    refine ⟨?_, ?_, ?_⟩
    · simp [inspectBrowserAction, screenshotStep, hsid, hlook, hnova, hcap, hne, hnle, hsave,
        screenshotSavePath]
    · simp [inspectBrowserAction, screenshotStep, hsid, hlook, hnova, hcap, hne, hnle, hsave,
        screenshotSavePath]
    · intro c hc
      simp [inspectBrowserAction, screenshotStep, hsid, hlook, hnova, hcap, hne, hnle, hsave] at hc
      rw [hc]
      simp

/-- Witness for C2: a three-byte screenshot against a one-megabyte
threshold is inlined; the same bytes against a two-byte threshold are
saved to the logs-directory screenshots folder. -/
theorem c2_screenshot_inline_or_file_witness :
    (("s1" : String) ≠ "" ∧
     lookupSession ([("s1", { novaInstance := some 0, logsDir := some "/logs/s1" })] :
        Registry) "s1" =
       some { novaInstance := some 0, logsDir := some "/logs/s1" } ∧
     ([255, 216, 255] : List Nat) ≠ [] ∧
     ([255, 216, 255] : List Nat).length ≤ 1048576 ∧ 2 < ([255, 216, 255] : List Nat).length) ∧
    ((inspectBrowserAction true 1048576
        [("s1", { novaInstance := some 0, logsDir := some "/logs/s1" })] "s1"
        ⟨.ok "u", .ok "t", .ok [255, 216, 255], .ok (), "shot", none⟩ true).1.screenshotFilePath
        = none ∧
     (inspectBrowserAction true 1048576
        [("s1", { novaInstance := some 0, logsDir := some "/logs/s1" })] "s1"
        ⟨.ok "u", .ok "t", .ok [255, 216, 255], .ok (), "shot", none⟩ true).1.content.head? =
        some ⟨"image_base64", "", dataUrlOfBytes [255, 216, 255], "Current viewport"⟩ ∧
     (∃ tail, dataUrlOfBytes [255, 216, 255] = "data:image/jpeg;base64," ++ tail)) ∧
    ((inspectBrowserAction true 2
        [("s1", { novaInstance := some 0, logsDir := some "/logs/s1" })] "s1"
        ⟨.ok "u", .ok "t", .ok [255, 216, 255], .ok (), "shot", none⟩ true).1.screenshotFilePath
        = some (screenshotSavePath { novaInstance := some 0, logsDir := some "/logs/s1" }
            ⟨.ok "u", .ok "t", .ok [255, 216, 255], .ok (), "shot", none⟩ "s1")) :=
  ⟨⟨by decide, by decide, by decide, by decide, by decide⟩,
   (c2_screenshot_inline_or_file 1048576
      [("s1", { novaInstance := some 0, logsDir := some "/logs/s1" })] "s1"
      ⟨.ok "u", .ok "t", .ok [255, 216, 255], .ok (), "shot", none⟩
      { novaInstance := some 0, logsDir := some "/logs/s1" } [255, 216, 255]
      (by decide) (by decide) (by decide) rfl (by decide)).1 (by decide),
   ((c2_screenshot_inline_or_file 2
      [("s1", { novaInstance := some 0, logsDir := some "/logs/s1" })] "s1"
      ⟨.ok "u", .ok "t", .ok [255, 216, 255], .ok (), "shot", none⟩
      { novaInstance := some 0, logsDir := some "/logs/s1" } [255, 216, 255]
      (by decide) (by decide) (by decide) rfl (by decide)).2 (by decide) rfl).1⟩

theorem mem_applyStatusMsg (diags : List Diag) (statusMsg : Option String)
    (d : Diag) (hd : d ∈ diags) : d ∈ applyStatusMsg diags statusMsg := by
  cases statusMsg with
  | none => exact hd
  | some m =>
    by_cases h : diags.any (fun d => decide (d.content = m)) = true
    · simpa [applyStatusMsg, h] using hd
    · simp only [applyStatusMsg, h, Bool.false_eq_true, if_false]
      exact List.mem_append_left _ hd

theorem applyStatusMsg_cons2 (a b : Diag) (rest0 : List Diag)
    (statusMsg : Option String) :
    ∃ rest, applyStatusMsg (a :: b :: rest0) statusMsg = a :: b :: rest := by
  cases statusMsg with
  | none => exact ⟨rest0, rfl⟩
  | some m =>
    by_cases h : (a :: b :: rest0).any (fun d => decide (d.content = m)) = true
    · exact ⟨rest0, by simp [applyStatusMsg, h]⟩
    · refine ⟨rest0 ++ [⟨"system_info", m, "inspect_browser"⟩], ?_⟩
      simp [applyStatusMsg, h]

/-- C6: once the session and its Nova instance are found,
`inspect_browser` returns `success = true` whatever the page reads do;
a URL-read failure and a title-read failure are each recorded as their own
diagnostic entry in `agent_thinking` (both present, in order, when both
fail), a failure of one read does not prevent the other from being
reported, and a screenshot-capture failure leaves both screenshot fields
unpopulated while the call still succeeds. -/
theorem c6_inspect_fault_tolerant (maxInline : Nat) (reg : Registry)
    (sid : String) (env : PageEnv) (entry : SessionEntry)
    (includeScreenshot : Bool) (hsid : sid ≠ "")
    (hlook : lookupSession reg sid = some entry)
    (hnova : entry.novaInstance.isNone = false) :
    (inspectBrowserAction true maxInline reg sid env includeScreenshot).1.success
        = true ∧
    (∀ e, env.urlRead = .error e →
      urlErrDiag e ∈
        (inspectBrowserAction true maxInline reg sid env includeScreenshot).1.agentThinking ∧
      (∀ t, env.titleRead = .ok t →
        (inspectBrowserAction true maxInline reg sid env includeScreenshot).1.pageTitle = t)) ∧
    (∀ e, env.titleRead = .error e →
      titleErrDiag e ∈
        (inspectBrowserAction true maxInline reg sid env includeScreenshot).1.agentThinking ∧
      (∀ u, env.urlRead = .ok u →
        (inspectBrowserAction true maxInline reg sid env includeScreenshot).1.currentUrl = u)) ∧
    (∀ e1 e2, env.urlRead = .error e1 → env.titleRead = .error e2 →
      ∃ rest,
        (inspectBrowserAction true maxInline reg sid env includeScreenshot).1.agentThinking =
          urlErrDiag e1 :: titleErrDiag e2 :: rest) ∧
    (∀ e, env.capture = .error e → includeScreenshot = true →
      shotErrDiag e ∈
        (inspectBrowserAction true maxInline reg sid env true).1.agentThinking ∧
      (inspectBrowserAction true maxInline reg sid env true).1.screenshotFilePath = none ∧
      ∀ c ∈ (inspectBrowserAction true maxInline reg sid env true).1.content,
        c.ctype ≠ "image_base64") := by
  refine ⟨?_, ?_, ?_, ?_, ?_⟩
  · simp [inspectBrowserAction, hsid, hlook, hnova]
  · intro e hurl
    constructor
    · simp only [inspectBrowserAction, hsid, hlook, hnova, hurl]
      simp
      exact mem_applyStatusMsg _ _ _ (by simp)
    · intro t htr
      simp [inspectBrowserAction, hsid, hlook, hnova, hurl, htr]
  · intro e htr
    constructor
    · simp only [inspectBrowserAction, hsid, hlook, hnova, htr]
      simp
      exact mem_applyStatusMsg _ _ _ (by simp)
    · intro u hurl
      simp [inspectBrowserAction, hsid, hlook, hnova, htr, hurl]
  · intro e1 e2 hurl htr
    simp only [inspectBrowserAction, hsid, hlook, hnova, hurl, htr]
    simp
    exact applyStatusMsg_cons2 _ _ _ _
  · intro e hcap hinc
    refine ⟨?_, ?_, ?_⟩
    · simp only [inspectBrowserAction, hsid, hlook, hnova]
      simp
      exact mem_applyStatusMsg _ _ _ (by simp [screenshotStep, hcap])
    · simp [inspectBrowserAction, screenshotStep, hsid, hlook, hnova, hcap]
    · intro c hc
      simp [inspectBrowserAction, screenshotStep, hsid, hlook, hnova, hcap] at hc
      rw [hc]
      simp

/-- Page environment where every page read and the capture throw, for the
C6 witness. -/
def faultEnvSample : PageEnv :=
  ⟨.error "boom-url", .error "boom-title", .error "boom-shot", .ok (), "shot", none⟩

/-- Witness for C6 at a concrete session whose URL read, title read and
screenshot capture all throw. -/
theorem c6_inspect_fault_tolerant_witness :
    (("s1" : String) ≠ "" ∧
     lookupSession ([("s1", liveEntrySample)] : Registry) "s1" = some liveEntrySample ∧
     liveEntrySample.novaInstance.isNone = false ∧
     faultEnvSample.urlRead = .error "boom-url" ∧
     faultEnvSample.titleRead = .error "boom-title" ∧
     faultEnvSample.capture = .error "boom-shot") ∧
    ((inspectBrowserAction true 1048576 [("s1", liveEntrySample)] "s1"
        faultEnvSample true).1.success = true ∧
     urlErrDiag "boom-url" ∈ (inspectBrowserAction true 1048576
        [("s1", liveEntrySample)] "s1" faultEnvSample true).1.agentThinking ∧
     titleErrDiag "boom-title" ∈ (inspectBrowserAction true 1048576
        [("s1", liveEntrySample)] "s1" faultEnvSample true).1.agentThinking ∧
     (∃ rest, (inspectBrowserAction true 1048576 [("s1", liveEntrySample)] "s1"
        faultEnvSample true).1.agentThinking =
        urlErrDiag "boom-url" :: titleErrDiag "boom-title" :: rest) ∧
     shotErrDiag "boom-shot" ∈ (inspectBrowserAction true 1048576
        [("s1", liveEntrySample)] "s1" faultEnvSample true).1.agentThinking ∧
     (inspectBrowserAction true 1048576 [("s1", liveEntrySample)] "s1"
        faultEnvSample true).1.screenshotFilePath = none) :=
  ⟨⟨by decide, by decide, by decide, rfl, rfl, rfl⟩,
   (c6_inspect_fault_tolerant 1048576 [("s1", liveEntrySample)] "s1"
      faultEnvSample liveEntrySample true (by decide) (by decide) (by decide)).1,
   ((c6_inspect_fault_tolerant 1048576 [("s1", liveEntrySample)] "s1"
      faultEnvSample liveEntrySample true (by decide) (by decide) (by decide)).2.1
      "boom-url" rfl).1,
   ((c6_inspect_fault_tolerant 1048576 [("s1", liveEntrySample)] "s1"
      faultEnvSample liveEntrySample true (by decide) (by decide) (by decide)).2.2.1
      "boom-title" rfl).1,
   (c6_inspect_fault_tolerant 1048576 [("s1", liveEntrySample)] "s1"
      faultEnvSample liveEntrySample true (by decide) (by decide) (by decide)).2.2.2.1
      "boom-url" "boom-title" rfl rfl,
   ((c6_inspect_fault_tolerant 1048576 [("s1", liveEntrySample)] "s1"
      faultEnvSample liveEntrySample true (by decide) (by decide) (by decide)).2.2.2.2
      "boom-shot" rfl rfl).1,
   ((c6_inspect_fault_tolerant 1048576 [("s1", liveEntrySample)] "s1"
      faultEnvSample liveEntrySample true (by decide) (by decide) (by decide)).2.2.2.2
      "boom-shot" rfl rfl).2.1⟩

/-- Counterexample to C3 as stated: in the modular start path
(`actions_start.initialize_browser_session`), an exception during session
initialization does not leave a registry entry with status `error` — the
entry is popped, so the session id resolves to nothing — and no defensive
close of the partially-constructed Nova instance is attempted (the third
component of the model's result records close attempts). -/
theorem c3_counterexample :
    lookupSession
      (initializeBrowserSession true (some "key") "https://example.com"
        "default" "s1" 0 [] (.error "boom")).1 "s1" = none ∧
    (initializeBrowserSession true (some "key") "https://example.com"
      "default" "s1" 0 [] (.error "boom")).2.2 = false ∧
    (initializeBrowserSession true (some "key") "https://example.com"
      "default" "s1" 0 [] (.error "boom")).2.1.success = false := by
  refine ⟨?_, ?_, ?_⟩ <;> rfl

/-- C3 (amended): every start failure yields a structured error result,
never a raised exception, with pre-validation failures carrying
`NOVA_ACT_NOT_AVAILABLE` / `MISSING_API_KEY` / `MISSING_PARAMETER`; but
the two start generations differ on exceptions during initialization —
the modular `initialize_browser_session` removes the registry entry
(rather than marking it `error`) and does not close the Nova instance,
while the legacy `start_browser_session` updates the entry to status
`error` with the message retained and closes the partially-constructed
instance defensively. -/
theorem c3_start_error_paths :
    (∀ (apiKey url identity sid : String) (now : Int) (reg : Registry)
       (msg : String), url ≠ "" →
      (initializeBrowserSession true (some apiKey) url identity sid now reg
        (.error msg)).2.1.success = false ∧
      (initializeBrowserSession true (some apiKey) url identity sid now reg
        (.error msg)).2.1.status = some "error" ∧
      (initializeBrowserSession true (some apiKey) url identity sid now reg
        (.error msg)).2.1.errorMsg = some msg ∧
      lookupSession (initializeBrowserSession true (some apiKey) url identity
        sid now reg (.error msg)).1 sid = none ∧
      (initializeBrowserSession true (some apiKey) url identity sid now reg
        (.error msg)).2.2 = false) ∧
    (∀ (url identity sid : String) (now : Int) (reg : Registry)
       (init : InitOutcome),
      (initializeBrowserSession false none url identity sid now reg
        init).2.1.errorCode = some "NOVA_ACT_NOT_AVAILABLE") ∧
    (∀ (url identity sid : String) (now : Int) (reg : Registry)
       (init : InitOutcome),
      (initializeBrowserSession true none url identity sid now reg
        init).2.1.errorCode = some "MISSING_API_KEY") ∧
    (∀ (apiKey identity sid : String) (now : Int) (reg : Registry)
       (init : InitOutcome),
      (initializeBrowserSession true (some apiKey) "" identity sid now reg
        init).2.1.errorCode = some "MISSING_PARAMETER") ∧
    (∀ (sid url : String) (now : Int) (reg : Registry) (msg : String)
       (novaCreated : Bool),
      (∃ e, lookupSession (startBrowserSessionLegacy sid url now reg
          (.error (novaCreated, msg))).1 sid = some e ∧
        e.status = "error" ∧ e.errorMsg = some msg ∧ e.novaInstance = none) ∧
      (startBrowserSessionLegacy sid url now reg
        (.error (novaCreated, msg))).2.2 = novaCreated ∧
      (startBrowserSessionLegacy sid url now reg
        (.error (novaCreated, msg))).2.1.success = false ∧
      (startBrowserSessionLegacy sid url now reg
        (.error (novaCreated, msg))).2.1.errorMsg =
        some ("Error starting browser session: " ++
          ("Error starting browser session: " ++ msg))) := by
  refine ⟨?_, ?_, ?_, ?_, ?_⟩
  · intro apiKey url identity sid now reg msg hurl
    refine ⟨?_, ?_, ?_, ?_, ?_⟩ <;>
      simp [initializeBrowserSession, hurl, lookupSession_removeSession]
  · intro url identity sid now reg init
    rfl
  · intro url identity sid now reg init
    rfl
  · intro apiKey identity sid now reg init
    rfl
  · intro sid url now reg msg novaCreated
    have hstep : (startBrowserSessionLegacy sid url now reg
        (.error (novaCreated, msg))).1 =
        updateSession (setSession reg sid
          { status := "initializing", url := some url, errorMsg := none,
            complete := false, lastUpdated := now, executor := some 0 }) sid
          (fun e =>
            { e with status := "error", errorMsg := some msg,
                     novaInstance := none, lastUpdated := now }) := rfl
    have hlk : lookupSession (startBrowserSessionLegacy sid url now reg
        (.error (novaCreated, msg))).1 sid =
        some { status := "error", url := some url, errorMsg := some msg,
               complete := false, lastUpdated := now, executor := some 0,
               novaInstance := none } := by
      rw [hstep, lookupSession_updateSession, lookupSession_setSession]
      rfl
    exact ⟨⟨_, hlk, rfl, rfl, rfl⟩, rfl, rfl, rfl⟩

/-- Witness for C3 (amended) at concrete inputs for both start paths. -/
theorem c3_start_error_paths_witness :
    (("https://example.com" : String) ≠ "") ∧
    ((initializeBrowserSession true (some "key") "https://example.com"
        "default" "s1" 0 [] (.error "boom")).2.1.status = some "error") ∧
    (∃ e, lookupSession (startBrowserSessionLegacy "s2" "https://example.com"
        0 [] (.error (true, "crash"))).1 "s2" = some e ∧
      e.status = "error" ∧ e.errorMsg = some "crash" ∧ e.novaInstance = none) ∧
    (startBrowserSessionLegacy "s2" "https://example.com" 0 []
      (.error (true, "crash"))).2.2 = true :=
  ⟨by decide,
   ((c3_start_error_paths.1 "key" "https://example.com" "default" "s1" 0 []
      "boom" (by decide)).2.1),
   (c3_start_error_paths.2.2.2.2 "s2" "https://example.com" 0 [] "crash"
      true).1,
   (c3_start_error_paths.2.2.2.2 "s2" "https://example.com" 0 [] "crash"
      true).2.1⟩

theorem matchTypeDirect_nil : matchTypeDirect [] = none := by decide

theorem matchClickDirect_nil : matchClickDirect [] = none := by decide

theorem optNonempty_some (l : List Char) : optNonempty (some l) = !l.isEmpty := rfl

theorem credActs_arg_mem (fOk : Bool) (u p : Option (List Char))
    (a : List Char) (ha : a ∈ (credActs fOk u p).1) :
    a = "focus the username field".toList ∨
      a = "focus the password field".toList := by
  cases fOk with
  | true => simp [credActs] at ha
  | false =>
    simp only [credActs] at ha
    rcases List.mem_append.mp ha with h1 | h1
    · left
      rcases u with _ | u'
      · simp at h1
      · by_cases hu : u'.isEmpty = true
        · simp [hu] at h1
        · simp only [Bool.not_eq_true] at hu
          simp [hu] at h1
          exact h1
    · right
      rcases p with _ | p'
      · simp at h1
      · by_cases hp : p'.isEmpty = true
        · simp [hp] at h1
        · simp only [Bool.not_eq_true] at hp
          simp [hp] at h1
          exact h1

/-- C8: an instruction matching one of the two literal imperative
templates (`Type '<text>' into element '<selector>'`,
`Click element '<selector>'`, case-insensitive) is handled by the direct
Playwright page call (`fill` / `click`), the natural-language `act` call
is not invoked for it (the only engine calls that may happen are the
fixed credential-focus fallbacks), and both the recorded result and the
response payload carry `direct_action = true`. -/
theorem c8_direct_pattern_fast_path (env : ExecEnv)
    (u p : Option (List Char)) (i : List Char)
    (hdir : env.directOk = true) :
    (∀ text sel, matchTypeDirect i = some (text, sel) →
      (executeInstructionAction env u p (some i) false).mainActArg = none ∧
      (executeInstructionAction env u p (some i) false).directAction = true ∧
      PageAct.fillAct sel text ∈
        (executeInstructionAction env u p (some i) false).pageActs ∧
      (∃ r, (executeInstructionAction env u p (some i) false).recorded = some r ∧
        r.directAction = true ∧ r.executed = "direct_playwright".toList) ∧
      (∀ a ∈ (executeInstructionAction env u p (some i) false).auxActArgs,
        a = "focus the username field".toList ∨
          a = "focus the password field".toList)) ∧
    (∀ sel, matchTypeDirect i = none → matchClickDirect i = some sel →
      (executeInstructionAction env u p (some i) false).mainActArg = none ∧
      (executeInstructionAction env u p (some i) false).directAction = true ∧
      PageAct.clickAct sel ∈
        (executeInstructionAction env u p (some i) false).pageActs ∧
      (∃ r, (executeInstructionAction env u p (some i) false).recorded = some r ∧
        r.directAction = true ∧ r.executed = "direct_playwright".toList) ∧
      (∀ a ∈ (executeInstructionAction env u p (some i) false).auxActArgs,
        a = "focus the username field".toList ∨
          a = "focus the password field".toList)) := by
  constructor
  · intro text sel hmt
    have hi : i ≠ [] := by
      intro h
      rw [h, matchTypeDirect_nil] at hmt
      cases hmt
    have hie : i.isEmpty = false := by
      cases i with
      | nil => exact absurd rfl hi
      | cons a b => rfl
    have hmain : executeInstructionAction env u p (some i) false =
        { mainActArg := none,
          auxActArgs := (if (optNonempty u || optNonempty p) = true then
            credActs env.credFillOk u p else ([], [])).1,
          pageActs := (if (optNonempty u || optNonempty p) = true then
            credActs env.credFillOk u p else ([], [])).2 ++
            [PageAct.fillAct sel text],
          directAction := true,
          recorded := some { action := some i,
                             executed := "direct_playwright".toList,
                             directAction := true },
          raisedError := none } := by
      simp [executeInstructionAction, optNonempty_some, hie, hmt, hdir]
    rw [hmain]
    refine ⟨rfl, rfl, by simp, ⟨_, rfl, rfl, rfl⟩, ?_⟩
    intro a ha
    by_cases hcp : (optNonempty u || optNonempty p) = true
    · rw [if_pos hcp] at ha
      exact credActs_arg_mem env.credFillOk u p a ha
    · rw [if_neg hcp] at ha
      simp at ha
  · intro sel hmtn hmc
    have hi : i ≠ [] := by
      intro h
      rw [h, matchClickDirect_nil] at hmc
      cases hmc
    have hie : i.isEmpty = false := by
      cases i with
      | nil => exact absurd rfl hi
      | cons a b => rfl
    have hmain : executeInstructionAction env u p (some i) false =
        { mainActArg := none,
          auxActArgs := (if (optNonempty u || optNonempty p) = true then
            credActs env.credFillOk u p else ([], [])).1,
          pageActs := (if (optNonempty u || optNonempty p) = true then
            credActs env.credFillOk u p else ([], [])).2 ++
            [PageAct.clickAct sel],
          directAction := true,
          recorded := some { action := some i,
                             executed := "direct_playwright".toList,
                             directAction := true },
          raisedError := none } := by
      simp [executeInstructionAction, optNonempty_some, hie, hmtn, hmc, hdir]
    rw [hmain]
    refine ⟨rfl, rfl, by simp, ⟨_, rfl, rfl, rfl⟩, ?_⟩
    intro a ha
    by_cases hcp : (optNonempty u || optNonempty p) = true
    · rw [if_pos hcp] at ha
      exact credActs_arg_mem env.credFillOk u p a ha
    · rw [if_neg hcp] at ha
      simp at ha

/-- Witness for C8: the instruction `Click element 'a#missing'` matches
the click template and is dispatched as a direct page click with no
`act` call. -/
theorem c8_direct_pattern_fast_path_witness :
    matchTypeDirect "Click element 'a#missing'".toList = none ∧
    matchClickDirect "Click element 'a#missing'".toList
      = some "a#missing".toList ∧
    (executeInstructionAction (ExecEnv.mk true true (Except.ok "")) none none
        (some "Click element 'a#missing'".toList) false).mainActArg = none ∧
    (executeInstructionAction (ExecEnv.mk true true (Except.ok "")) none none
        (some "Click element 'a#missing'".toList) false).directAction = true ∧
    PageAct.clickAct "a#missing".toList ∈
      (executeInstructionAction (ExecEnv.mk true true (Except.ok "")) none none
        (some "Click element 'a#missing'".toList) false).pageActs :=
  have hmt : matchTypeDirect "Click element 'a#missing'".toList = none := by
    decide
  have hmc : matchClickDirect "Click element 'a#missing'".toList
      = some "a#missing".toList := by decide
  have h := (c8_direct_pattern_fast_path (ExecEnv.mk true true (Except.ok ""))
      none none "Click element 'a#missing'".toList rfl).2
      "a#missing".toList hmt hmc
  ⟨hmt, hmc, h.1, h.2.1, h.2.2.1⟩

theorem isEmpty_false_of_ne_nil (l : List Char) (h : l ≠ []) :
    l.isEmpty = false := by
  cases l with
  | nil => exact absurd rfl h
  | cons a t => rfl

theorem replaceAllFuel_ne_nil (eqc : Char → Char → Bool) (pat rep : List Char)
    (fuel : Nat) (s : List Char) (hrep : rep ≠ []) (hs : s ≠ []) :
    replaceAllFuel eqc pat rep fuel s ≠ [] := by
  cases s with
  | nil => exact absurd rfl hs
  | cons c rest =>
    cases fuel with
    | zero => simp [replaceAllFuel]
    | succ f =>
      rw [replaceAllFuel_cons]
      by_cases hm : prefMatch eqc pat (c :: rest) = true
      · rw [if_pos hm]
        intro h
        rcases List.append_eq_nil.mp h with ⟨h1, h2⟩
        exact hrep h1
      · rw [if_neg hm]
        simp

theorem pyReplace_ne_nil (s pat rep : List Char) (hrep : rep ≠ [])
    (hs : s ≠ []) : pyReplace s pat rep ≠ [] := by
  rw [pyReplace]
  by_cases hp : pat.isEmpty = true
  · rw [if_pos hp]
    exact hs
  · rw [if_neg hp]
    exact replaceAllFuel_ne_nil chEq pat rep s.length s hrep hs

theorem pyReplaceCI_ne_nil (s pat rep : List Char) (hrep : rep ≠ [])
    (hs : s ≠ []) : pyReplaceCI s pat rep ≠ [] := by
  rw [pyReplaceCI]
  by_cases hp : pat.isEmpty = true
  · rw [if_pos hp]
    exact hs
  · rw [if_neg hp]
    exact replaceAllFuel_ne_nil chEqCI pat rep s.length s hrep hs

theorem credReplace_ne_nil (cred : Option (List Char)) (pl s : List Char)
    (hpl : pl ≠ []) (hs : s ≠ []) : credReplace cred pl s ≠ [] := by
  cases cred with
  | none => exact hs
  | some c =>
    rw [credReplace]
    by_cases hc : c.isEmpty = true
    · rw [if_pos hc]
      exact hs
    · rw [if_neg hc]
      exact pyReplace_ne_nil s c pl hpl hs

theorem sanitizeInstruction_ne_nil (u p : Option (List Char))
    (instr : List Char) (hi : instr ≠ []) :
    sanitizeInstruction u p instr ≠ [] := by
  rw [sanitizeInstruction]
  exact pyReplaceCI_ne_nil _ _ _ (by decide)
    (credReplace_ne_nil p plPassword _ (by decide)
      (credReplace_ne_nil u plUser instr (by decide) hi))

/-- Counterexample to C10 as stated: a password that is itself the mask
string `••••••` survives sanitization verbatim — the masking pass of
lines 753–759 rewrites the word `password` into `••••••`, re-creating
the raw password inside the instruction handed to `nova.act`. -/
theorem c10_counterexample :
    (executeInstructionAction (ExecEnv.mk true true (Except.ok "")) none
        (some "••••••".toList) (some "my password".toList)
        false).mainActArg = some "my ••••••".toList ∧
    "••••••".toList <:+: "my ••••••".toList := by
  constructor
  · decide
  · exact ⟨"my ".toList, [], rfl⟩

/-- C10 (amended): for every execute call supplying a password together
with a non-empty instruction, provided the password is non-empty and
contains none of the placeholder and mask characters `«`, `»`, `•`, the
raw password text never occurs in the instruction string passed to the
natural-language `act` call: credential text reaches the page only via
the direct fill and type calls. -/
theorem c10_no_password_in_act (env : ExecEnv) (u : Option (List Char))
    (p instr : List Char) (schema : Bool)
    (hp : p ≠ []) (hlq : '«' ∉ p) (hrq : '»' ∉ p) (hb : '•' ∉ p)
    (hi : instr ≠ []) :
    ∀ a, (executeInstructionAction env u (some p) (some instr)
        schema).mainActArg = some a → ¬ p <:+: a := by
  intro a ha
  have hpe : p.isEmpty = false := isEmpty_false_of_ne_nil p hp
  have hie : instr.isEmpty = false := isEmpty_false_of_ne_nil instr hi
  have hse : (sanitizeInstruction u (some p) instr).isEmpty = false :=
    isEmpty_false_of_ne_nil _ (sanitizeInstruction_ne_nil u (some p) instr hi)
  cases hmt : matchTypeDirect instr with
  | some pr =>
    rcases pr with ⟨text, sel⟩
    cases hdo : env.directOk <;>
      simp [executeInstructionAction, optNonempty_some, hpe, hie, hmt, hdo]
        at ha
  | none =>
    cases hmc : matchClickDirect instr with
    | some sel =>
      cases hdo : env.directOk <;>
        simp [executeInstructionAction, optNonempty_some, hpe, hie, hmt,
          hmc, hdo] at ha
    | none =>
      cases har : env.actResult with
      | ok v =>
        simp [executeInstructionAction, optNonempty_some, hpe, hie, hmt,
          hmc, har, hse] at ha
        rw [← ha]
        exact sanitizeInstruction_no_password u p instr hp hlq hrq hb
      | error e =>
        simp [executeInstructionAction, optNonempty_some, hpe, hie, hmt,
          hmc, har, hse] at ha
        rw [← ha]
        exact sanitizeInstruction_no_password u p instr hp hlq hrq hb

/-- Witness for C10 (amended) at a concrete call: password `pw`,
instruction `type the password`; the engine receives
`type the ••••••`, which does not contain the password. -/
theorem c10_no_password_in_act_witness :
    ("pw".toList ≠ [] ∧ '«' ∉ "pw".toList ∧ '»' ∉ "pw".toList ∧
      '•' ∉ "pw".toList ∧ "type the password".toList ≠ []) ∧
    (executeInstructionAction (ExecEnv.mk true true (Except.ok "")) none
        (some "pw".toList) (some "type the password".toList)
        false).mainActArg = some "type the ••••••".toList ∧
    ¬ "pw".toList <:+: "type the ••••••".toList := by
  have hm : (executeInstructionAction (ExecEnv.mk true true (Except.ok ""))
      none (some "pw".toList) (some "type the password".toList)
      false).mainActArg = some "type the ••••••".toList := by decide
  refine ⟨⟨by decide, by decide, by decide, by decide, by decide⟩, hm, ?_⟩
  exact c10_no_password_in_act (ExecEnv.mk true true (Except.ok "")) none
    "pw".toList "type the password".toList false (by decide) (by decide)
    (by decide) (by decide) (by decide) "type the ••••••".toList hm

end NovaMcp
